import Mathlib

/-!
# Farol — verification of `assets/js/script.js`

A shallow embedding of the site's client-side script. The document is a list of
elements; every function of the script becomes a function on `Page`. The parts of
the browser the script relies on are modelled after the DOM Standard:

* `classList.toggle/add/remove` run the *update steps*, which set the `class`
  attribute and therefore queue an "attributes" mutation record, also when the
  token set did not change (`add` of a token already present);
* `setAttribute` and writes to `style.*` queue a record as well;
* a `MutationObserver` owns a record queue; at the microtask checkpoint that ends
  a task, queues are drained round by round (`notifyMutationObservers`), and a
  callback that writes an attribute queues records for the next round;
* `setTimeout` appends a timer; a later task fires it.

The tree of the document is not part of the model. `Op.click i`, `Op.keydown` and the
mouse tasks dispatch the event at the element that carries the listeners (`keydown`
also reaches the listeners of `document`): they are the events whose propagation path
meets no other element with listeners. A click that bubbles is `Op.clickPath`, which
is given the propagation path of the event, target first. Timers may fire in any
order. The functions of
the script that `DOMContentLoaded` never calls and `window.rpgHub` does not expose
(`initSystemCardEffects`, `createSparkleEffect`, `addTemporaryClass`) and
`prefersReducedMotion`, which only reads a media query, are left out.
-/

namespace Farol

/-! ## Data model -/

/-- A mutation record of type "attributes"; the script reads only `attributeName`. -/
structure MutationRecord where
  attributeName : String
  deriving DecidableEq

/-- The three functions the script registers for `click`. -/
inductive ClickHandler
  /-- `initExpandableCards`, lines 26-35. -/
  | toggleCard
  /-- `initPageTransitions`, lines 76-99. -/
  | pageTransition
  /-- `initSmoothScroll`, lines 157-177. -/
  | smoothScroll
  deriving DecidableEq

/-- An entry of an element's event listener list, in registration order. -/
inductive Listener
  | click (h : ClickHandler)
  /-- `keydown` listener of `initExpandableCards`, lines 38-43. -/
  | keydown
  /-- `mouseenter` listener of `initNavButtons`, lines 115-117. -/
  | mouseenter
  /-- `mousedown` listener of `initNavButtons`, lines 120-122. -/
  | mousedown
  /-- `mouseup` listener of `initNavButtons`, lines 124-126. -/
  | mouseup
  deriving DecidableEq

/-- One element of the document. `classList` is the token set of the `class`
attribute, `transform` and `textShadow` are the two inline style properties the
script writes, `attributes` holds every other attribute. `observers` has one record
queue for each `MutationObserver` observing this element (the script only creates
observers that observe the card captured by their own callback). -/
structure Element where
  tagName : String
  classList : List String
  attributes : List (String × String)
  transform : String
  textShadow : String
  offsetTop : Int
  offsetHeight : Int
  listeners : List Listener
  observers : List (List MutationRecord)
  deriving DecidableEq

/-- What a `setTimeout` callback of the script does when it runs. -/
inductive TimerAction
  /-- `this.style.transform = ''` (line 33) for element `i`. -/
  | revertTransform (i : Nat)
  /-- `button.style.textShadow = ''` (line 145) for element `i`. -/
  | clearTextShadow (i : Nat)
  /-- `window.location.href = href` (line 96). -/
  | navigate (href : String)
  deriving DecidableEq

/-- A pending timer: the delay passed to `setTimeout` and its callback. -/
structure Timer where
  delay : Nat
  action : TimerAction
  deriving DecidableEq

/-- The document together with the window state the script touches. -/
structure Page where
  elements : List Element
  /-- Number of `keydown` listeners registered on `document`. -/
  documentKeydown : Nat
  timers : List Timer
  console : List String
  bodyTransition : String
  bodyOpacity : String
  bodyFilter : String
  location : String
  scrollTop : Option Int
  deriving DecidableEq

/-- An element as written in the page markup: no listeners, no observers. -/
structure Markup where
  tagName : String
  classList : List String
  attributes : List (String × String)
  transform : String
  textShadow : String
  offsetTop : Int
  offsetHeight : Int
  deriving DecidableEq

/-! ## Strings and attribute lists -/

/-- Prefix test on character lists. -/
def startsWithChars : List Char → List Char → Bool
  | _, [] => true
  | [], _ :: _ => false
  | c :: s, d :: pre => c == d && startsWithChars s pre

/-- `String.prototype.startsWith`. -/
def startsWith (s pre : String) : Bool :=
  startsWithChars s.toList pre.toList

/-- JavaScript truthiness of the result of `getAttribute`: `null` and `''` are falsy. -/
def truthy : Option String → Bool
  | none => false
  | some s => decide (s ≠ "")

/-- Write `name="value"` into an attribute list. -/
def setAttr (name value : String) : List (String × String) → List (String × String)
  | [] => [(name, value)]
  | (k, v) :: rest =>
    if k = name then (k, value) :: rest else (k, v) :: setAttr name value rest

/-- Read an attribute; `none` is JavaScript's `null`. -/
def getAttr (name : String) : List (String × String) → Option String
  | [] => none
  | (k, v) :: rest => if k = name then some v else getAttr name rest

/-! ## DOMTokenList -/

/-- `classList.contains(token)`. -/
def DOMTokenList.contains (tokens : List String) (token : String) : Bool :=
  decide (token ∈ tokens)

/-- Token set after `classList.add(token)`. -/
def DOMTokenList.add (tokens : List String) (token : String) : List String :=
  if token ∈ tokens then tokens else tokens ++ [token]

/-- Token set after `classList.remove(token)`. -/
def DOMTokenList.remove (tokens : List String) (token : String) : List String :=
  tokens.filter (fun t => decide (t ≠ token))

/-- Token set after `classList.toggle(token)` without the `force` argument. -/
def DOMTokenList.toggle (tokens : List String) (token : String) : List String :=
  if token ∈ tokens then DOMTokenList.remove tokens token else tokens ++ [token]

/-! ## Element operations -/

/-- Queue an "attributes" record for every observer of the element. -/
def Element.queueRecord (name : String) (e : Element) : Element :=
  { e with observers := e.observers.map (fun q => q ++ [MutationRecord.mk name]) }

/-- `e.classList.toggle(token)`: the update steps always run. -/
def Element.classListToggle (token : String) (e : Element) : Element :=
  ({ e with classList := DOMTokenList.toggle e.classList token }).queueRecord "class"

/-- `e.classList.add(token)`: the update steps always run, the token set being
non-empty afterwards. -/
def Element.classListAdd (token : String) (e : Element) : Element :=
  ({ e with classList := DOMTokenList.add e.classList token }).queueRecord "class"

/-- `e.classList.remove(token)`: the update steps return early only when the
element has no `class` attribute and the token set is empty; an empty token list
stands for the absent attribute here. -/
def Element.classListRemove (token : String) (e : Element) : Element :=
  if e.classList = [] then e
  else ({ e with classList := DOMTokenList.remove e.classList token }).queueRecord "class"

/-- `e.setAttribute(name, value)` for attributes other than `class` and `style`. -/
def Element.setAttribute (name value : String) (e : Element) : Element :=
  ({ e with attributes := setAttr name value e.attributes }).queueRecord name

/-- `e.getAttribute(name)`. -/
def Element.getAttribute (name : String) (e : Element) : Option String :=
  getAttr name e.attributes

/-- `e.style.transform = value`. -/
def Element.setTransform (value : String) (e : Element) : Element :=
  ({ e with transform := value }).queueRecord "style"

/-- `e.style.textShadow = value`. -/
def Element.setTextShadow (value : String) (e : Element) : Element :=
  ({ e with textShadow := value }).queueRecord "style"

/-- `e.addEventListener(...)`. -/
def Element.addEventListener (l : Listener) (e : Element) : Element :=
  { e with listeners := e.listeners ++ [l] }

/-- The card's expanded state: presence of the `active` marker. -/
def Element.expanded (e : Element) : Bool :=
  DOMTokenList.contains e.classList "active"

/-! ## Selectors -/

/-- `.rule-card`. -/
def isRuleCard (e : Element) : Bool :=
  DOMTokenList.contains e.classList "rule-card"

/-- `.rule-card.active`. -/
def isActiveRuleCard (e : Element) : Bool :=
  DOMTokenList.contains e.classList "rule-card" && DOMTokenList.contains e.classList "active"

/-- `a:not([target="_blank"])`. -/
def isPageLink (e : Element) : Bool :=
  decide (e.tagName = "a") && decide (e.getAttribute "target" ≠ some "_blank")

/-- `.nav-button`. -/
def isNavButton (e : Element) : Bool :=
  DOMTokenList.contains e.classList "nav-button"

/-- `a[href^="#"]`. -/
def isAnchorLink (e : Element) : Bool :=
  decide (e.tagName = "a") &&
    (match e.getAttribute "href" with
     | none => false
     | some h => startsWith h "#")

/-- `.navbar`. -/
def isNavbar (e : Element) : Bool :=
  DOMTokenList.contains e.classList "navbar"

/-- `document.querySelector(href)` for an href of the form `#id`: the first element
whose `id` attribute is the rest of the href. Other selectors, and the exception that
an invalid selector raises, are outside the model. -/
def matchesHash (href : String) (e : Element) : Bool :=
  match e.getAttribute "id" with
  | none => false
  | some id => decide ("#" ++ id = href)

/-! ## Page operations -/

/-- `console.log(msg)`. -/
def Page.log (msg : String) (p : Page) : Page :=
  { p with console := p.console ++ [msg] }

/-- `document.querySelectorAll(sel)`: the static list of matching elements, as
indices in document order. -/
def Page.querySelectorAll (sel : Element → Bool) (p : Page) : List Nat :=
  (List.range p.elements.length).filter (fun i =>
    match p.elements[i]? with
    | some e => sel e
    | none => false)

/-- `document.querySelector(sel)`. -/
def Page.querySelector (sel : Element → Bool) (p : Page) : Option Element :=
  p.elements.find? sel

/-- `nodes.forEach(body)` for a body that only touches the node it is given. -/
def Page.forEach (nodes : List Nat) (body : Element → Element) (p : Page) : Page :=
  { p with elements := nodes.foldl (fun els i => els.modify body i) p.elements }

/-- Apply `f` to element `i`. -/
def Page.updateElement (i : Nat) (f : Element → Element) (p : Page) : Page :=
  { p with elements := p.elements.modify f i }

/-- `setTimeout(callback, delay)`. -/
def Page.setTimeout (action : TimerAction) (delay : Nat) (p : Page) : Page :=
  { p with timers := p.timers ++ [Timer.mk delay action] }

/-! ## `initExpandableCards` (lines 21-64) -/

/-- The `MutationObserver` callback, lines 51-58. -/
def observerCallback (mutations : List MutationRecord) (card : Element) : Element :=
  mutations.foldl (fun card mutation =>
    if mutation.attributeName = "class" then
      let isActive := DOMTokenList.contains card.classList "active"
      card.setAttribute "aria-expanded" (toString isActive)
    else card) card

/-- The body of `ruleCards.forEach`, lines 25-60. -/
def initCard (card : Element) : Element :=
  let card := card.addEventListener (Listener.click ClickHandler.toggleCard)
  let card := card.addEventListener Listener.keydown
  let card := card.setAttribute "tabindex" "0"
  let card := card.setAttribute "role" "button"
  let card := card.setAttribute "aria-expanded" "false"
  { card with observers := card.observers ++ [[]] }

/-- Lines 21-64. -/
def initExpandableCards (p : Page) : Page :=
  let ruleCards := p.querySelectorAll isRuleCard
  let p := p.forEach ruleCards initCard
  p.log (toString ruleCards.length ++ " cards expansíveis inicializados")

/-- The click listener of a card, lines 26-35, applied to the card itself. -/
def toggleCardElement (this : Element) : Element :=
  (this.classListToggle "active").setTransform "scale(0.98)"

/-- The click listener of a card, lines 26-35. -/
def toggleCardHandler (i : Nat) (p : Page) : Page :=
  (p.updateElement i toggleCardElement).setTimeout (TimerAction.revertTransform i) 100

/-! ## `initPageTransitions` (lines 71-103) -/

/-- Lines 71-103. -/
def initPageTransitions (p : Page) : Page :=
  let links := p.querySelectorAll isPageLink
  let p := p.forEach links (Element.addEventListener (Listener.click ClickHandler.pageTransition))
  p.log "Transições de página inicializadas"

/-- The click listener of a link, lines 76-99, given the value of
`this.getAttribute('href')`; the Boolean is the event's `defaultPrevented`. -/
def pageTransitionOn (href : Option String) (st : Page × Bool) : Page × Bool :=
  match href with
  | none => st
  | some h =>
    if truthy href && startsWith h "#" then st
    else if truthy href && !startsWith h "javascript:" then
      (({ st.1 with
          bodyTransition := "opacity 0.4s ease, filter 0.4s ease"
          bodyOpacity := "0"
          bodyFilter := "blur(5px)" } : Page).setTimeout (TimerAction.navigate h) 400, true)
    else st

/-- The click listener of a link, lines 76-99. -/
def pageTransitionHandler (i : Nat) (st : Page × Bool) : Page × Bool :=
  match st.1.elements[i]? with
  | none => st
  | some this => pageTransitionOn (this.getAttribute "href") st

/-! ## `initNavButtons` (lines 110-147) -/

/-- Lines 110-130. -/
def initNavButtons (p : Page) : Page :=
  let navButtons := p.querySelectorAll isNavButton
  let p := p.forEach navButtons (fun button =>
    ((button.addEventListener Listener.mouseenter).addEventListener
      Listener.mousedown).addEventListener Listener.mouseup)
  p.log (toString navButtons.length ++ " botões de navegação animados")

/-- Lines 136-147. -/
def animateRuneGlow (i : Nat) (p : Page) : Page :=
  (p.updateElement i (Element.setTextShadow "0 0 10px rgba(196, 165, 110, 0.6)")).setTimeout
    (TimerAction.clearTextShadow i) 500

/-! ## `initSmoothScroll` (lines 153-181) -/

/-- Lines 153-181. -/
def initSmoothScroll (p : Page) : Page :=
  let anchorLinks := p.querySelectorAll isAnchorLink
  let p := p.forEach anchorLinks (Element.addEventListener (Listener.click ClickHandler.smoothScroll))
  p.log "Scroll suave inicializado"

/-- The click listener of an anchor link, lines 157-177. -/
def smoothScrollHandler (i : Nat) (st : Page × Bool) : Page × Bool :=
  match st.1.elements[i]? with
  | none => st
  | some this =>
    match this.getAttribute "href" with
    | none => st
    | some href =>
      if href = "" ∨ href = "#" then st
      else
        match st.1.querySelector (matchesHash href) with
        | none => st
        | some target =>
          let navbarHeight : Int :=
            match st.1.querySelector isNavbar with
            | none => 0
            | some navbar => navbar.offsetHeight
          let targetPosition := target.offsetTop - navbarHeight - 20
          ({ st.1 with scrollTop := some targetPosition }, true)

/-! ## `addKeyboardNavigation` (lines 187-203) -/

/-- Lines 187-203. -/
def addKeyboardNavigation (p : Page) : Page :=
  ({ p with documentKeydown := p.documentKeydown + 1 } : Page).log
    "Navegação por teclado configurada"

/-- The `keydown` listener of `document`, lines 189-200. -/
def documentKeydownHandler (key : String) (p : Page) : Page :=
  if key = "Escape" then
    let activeCards := p.querySelectorAll isActiveRuleCard
    let p := p.forEach activeCards (Element.classListRemove "active")
    if activeCards.length > 0 then
      p.log (toString activeCards.length ++ " cards fechados com ESC")
    else p
  else p

/-! ## `expandAllCards` / `collapseAllCards` (lines 265-282) -/

/-- Lines 265-271. -/
def expandAllCards (p : Page) : Page :=
  let cards := p.querySelectorAll isRuleCard
  let p := p.forEach cards (Element.classListAdd "active")
  p.log "Todos os cards expandidos"

/-- Lines 276-282. -/
def collapseAllCards (p : Page) : Page :=
  let cards := p.querySelectorAll isRuleCard
  let p := p.forEach cards (Element.classListRemove "active")
  p.log "Todos os cards recolhidos"

/-! ## Event dispatch -/

/-- Run one listener of element `i` for a `click` event. -/
def Listener.handleClick (i : Nat) (st : Page × Bool) : Listener → Page × Bool
  | Listener.click ClickHandler.toggleCard => (toggleCardHandler i st.1, st.2)
  | Listener.click ClickHandler.pageTransition => pageTransitionHandler i st
  | Listener.click ClickHandler.smoothScroll => smoothScrollHandler i st
  | _ => st

/-- Dispatch a `click` event at element `i` (a pointer click or `element.click()`):
the listeners registered at dispatch time run in order. The Boolean is the event's
`defaultPrevented`. This is the whole dispatch when no ancestor of the element carries
a click listener; `dispatchClickPath` is the dispatch of a click that bubbles. -/
def dispatchClick (i : Nat) (p : Page) : Page × Bool :=
  match p.elements[i]? with
  | none => (p, false)
  | some e => e.listeners.foldl (fun st l => l.handleClick i st) (p, false)

/-- The click listeners of element `i` run for a `click` event that has reached it on
its way up from the target. -/
def dispatchClickAt (i : Nat) (st : Page × Bool) : Page × Bool :=
  match st.1.elements[i]? with
  | none => st
  | some e => e.listeners.foldl (fun st l => l.handleClick i st) st

/-- Dispatch a `click` event along its propagation path: the target first, then each
of its ancestors in turn. No listener of the script stops the propagation. -/
def dispatchClickPath (path : List Nat) (p : Page) : Page × Bool :=
  path.foldl (fun st i => dispatchClickAt i st) (p, false)

/-- The `keydown` listener of a card, lines 38-43. -/
def cardKeydownHandler (i : Nat) (key : String) (st : Page × Bool) : Page × Bool :=
  if key = "Enter" ∨ key = " " then ((dispatchClick i st.1).1, true) else st

/-- Run one listener of element `i` for a `keydown` event. -/
def Listener.handleKeydown (i : Nat) (key : String) (st : Page × Bool) : Listener → Page × Bool
  | Listener.keydown => cardKeydownHandler i key st
  | _ => st

/-- Dispatch a `keydown` event with the given key at element `target` (`none`: the
focus is on no element that carries listeners). After the target's listeners, the
event reaches the listeners of `document`. -/
def dispatchKeydown (target : Option Nat) (key : String) (p : Page) : Page × Bool :=
  let st : Page × Bool :=
    match target with
    | none => (p, false)
    | some i =>
      match p.elements[i]? with
      | none => (p, false)
      | some e => e.listeners.foldl (fun st l => l.handleKeydown i key st) (p, false)
  (Nat.iterate (documentKeydownHandler key) p.documentKeydown st.1, st.2)

/-- Run one listener of element `i` for a `mouseenter` event. -/
def Listener.handleMouseenter (i : Nat) (p : Page) : Listener → Page
  | Listener.mouseenter => animateRuneGlow i p
  | _ => p

/-- Run one listener of element `i` for a `mousedown` event. -/
def Listener.handleMousedown (i : Nat) (p : Page) : Listener → Page
  | Listener.mousedown => p.updateElement i (Element.setTransform "translateY(-1px) scale(0.98)")
  | _ => p

/-- Run one listener of element `i` for a `mouseup` event. -/
def Listener.handleMouseup (i : Nat) (p : Page) : Listener → Page
  | Listener.mouseup => p.updateElement i (Element.setTransform "translateY(-3px) scale(1)")
  | _ => p

/-- Dispatch a mouse event at element `i` with the given per-listener behaviour. -/
def dispatchMouse (handle : Nat → Page → Listener → Page) (i : Nat) (p : Page) : Page :=
  match p.elements[i]? with
  | none => p
  | some e => e.listeners.foldl (fun p l => handle i p l) p

/-! ## Timers -/

/-- Run the callback of a timer. -/
def TimerAction.run : TimerAction → Page → Page
  | TimerAction.revertTransform i, p => p.updateElement i (Element.setTransform "")
  | TimerAction.clearTextShadow i, p => p.updateElement i (Element.setTextShadow "")
  | TimerAction.navigate href, p => { p with location := href }

/-- The `k`-th pending timer fires: it leaves the timer list and its callback runs. -/
def fireTimer (k : Nat) (p : Page) : Page :=
  match p.timers[k]? with
  | none => p
  | some t => t.action.run { p with timers := p.timers.eraseIdx k }

/-! ## Mutation observer delivery -/

/-- Deliver to the `k`-th observer of an element: its queue is emptied and, when it
held records, its callback runs on them. -/
def Element.notifyObserver (k : Nat) (e : Element) : Element :=
  match e.observers[k]? with
  | none => e
  | some [] => e
  | some (r :: rs) => observerCallback (r :: rs) { e with observers := e.observers.set k [] }

/-- One round of "notify mutation observers" on an element. -/
def Element.notifyRound (e : Element) : Element :=
  (List.range e.observers.length).foldl (fun e k => e.notifyObserver k) e

/-- Some observer has queued records. -/
def Page.pendingRecords (p : Page) : Bool :=
  p.elements.any (fun e => e.observers.any (fun q => !q.isEmpty))

/-- The microtask checkpoint: rounds of delivery until no records are queued;
`none` when the fuel is used up first. -/
def notifyMutationObservers : Nat → Page → Option Page
  | 0, p => if p.pendingRecords then none else some p
  | fuel + 1, p =>
    if p.pendingRecords then
      notifyMutationObservers fuel { p with elements := p.elements.map Element.notifyRound }
    else some p

/-! ## Page load and tasks -/

/-- The element created from its markup. -/
def Markup.toElement (m : Markup) : Element :=
  { tagName := m.tagName, classList := m.classList, attributes := m.attributes,
    transform := m.transform, textShadow := m.textShadow, offsetTop := m.offsetTop,
    offsetHeight := m.offsetHeight, listeners := [], observers := [] }

/-- The parsed document after the script's top level ran (lines 286-295). -/
def Page.ofMarkup (ms : List Markup) : Page :=
  { elements := ms.map Markup.toElement, documentKeydown := 0, timers := [],
    console := ["🎲 RPG Hub inicializado com sucesso!", "📜 Sistema: Vaesen",
      "✨ Todos os scripts carregados e prontos"],
    bodyTransition := "", bodyOpacity := "", bodyFilter := "", location := "",
    scrollTop := none }

/-- The `DOMContentLoaded` listener, lines 8-14. -/
def domContentLoaded (p : Page) : Page :=
  addKeyboardNavigation (initSmoothScroll (initNavButtons
    (initPageTransitions (initExpandableCards p))))

/-- The page once `DOMContentLoaded` has been handled. -/
def Page.load (ms : List Markup) : Page :=
  domContentLoaded (Page.ofMarkup ms)

/-- The tasks that can run on a loaded page: user events, timers, and calls of the
functions exposed on `window.rpgHub`. -/
inductive Op
  | click (i : Nat)
  | keydown (target : Option Nat) (key : String)
  | mouseenter (i : Nat)
  | mousedown (i : Nat)
  | mouseup (i : Nat)
  | timer (k : Nat)
  | expandAllCards
  | collapseAllCards
  /-- A click that bubbles: `path` is the target followed by its ancestors. -/
  | clickPath (path : List Nat)
  deriving DecidableEq

/-- The synchronous part of a task. -/
def Op.run : Op → Page → Page
  | Op.click i, p => (dispatchClick i p).1
  | Op.keydown target key, p => (dispatchKeydown target key p).1
  | Op.mouseenter i, p => dispatchMouse Listener.handleMouseenter i p
  | Op.mousedown i, p => dispatchMouse Listener.handleMousedown i p
  | Op.mouseup i, p => dispatchMouse Listener.handleMouseup i p
  | Op.timer k, p => fireTimer k p
  | Op.expandAllCards, p => Farol.expandAllCards p
  | Op.collapseAllCards, p => Farol.collapseAllCards p
  | Op.clickPath path, p => (dispatchClickPath path p).1

/-- A task followed by its microtask checkpoint. -/
def Page.task (fuel : Nat) (op : Op) (p : Page) : Option Page :=
  notifyMutationObservers fuel (op.run p)

/-- A sequence of tasks. -/
def Page.tasks (fuel : Nat) : List Op → Page → Option Page
  | [], p => some p
  | op :: ops, p =>
    match p.task fuel op with
    | none => none
    | some p' => Page.tasks fuel ops p'

/-- The states of a page: the loaded page and whatever tasks lead to from it. -/
inductive Reachable : Page → Prop
  | load (ms : List Markup) : Reachable (Page.load ms)
  | task {p p' : Page} (fuel : Nat) (op : Op) :
      Reachable p → p.task fuel op = some p' → Reachable p'

/-- Element `i` of the page, if any. -/
def Page.element (p : Page) (i : Nat) : Option Element :=
  p.elements[i]?

/-- The `aria-expanded` attribute of element `i`. -/
def Page.ariaExpanded (p : Page) (i : Nat) : Option String :=
  (p.element i).bind (Element.getAttribute "aria-expanded")

/-- The expanded state of element `i`. -/
def Page.expanded (p : Page) (i : Nat) : Option Bool :=
  (p.element i).map Element.expanded

/-- The `style.transform` of element `i`. -/
def Page.transform (p : Page) (i : Nat) : Option String :=
  (p.element i).map Element.transform

/-! ## Predicates used by the statements -/

/-- The record is for the `class` attribute (the test of line 53). -/
def MutationRecord.isClass (m : MutationRecord) : Bool :=
  decide (m.attributeName = "class")

/-- Closed form of the delivery of the queued records to the single observer of an
element: when a `class` record is queued, `aria-expanded` is rewritten from the
marker; the queue ends up empty. -/
def Element.settle (e : Element) : Element :=
  match e.observers with
  | [q] =>
    if q.any MutationRecord.isClass then
      { e with
        attributes := setAttr "aria-expanded" (toString e.expanded) e.attributes
        observers := [[]] }
    else { e with observers := [[]] }
  | _ => e

/-- The element is wired the way `initExpandableCards` leaves it: a card has one
observer, one click listener that toggles it and one keydown listener; any other
element has none of them. -/
def Element.WiringOk (e : Element) : Prop :=
  e.observers.length = (if isRuleCard e then 1 else 0) ∧
  e.listeners.count (Listener.click ClickHandler.toggleCard) = (if isRuleCard e then 1 else 0) ∧
  e.listeners.count Listener.keydown = (if isRuleCard e then 1 else 0)

/-- Every element is wired and `document` has its one keydown listener. -/
def Page.Attached (p : Page) : Prop :=
  (∀ e ∈ p.elements, e.WiringOk) ∧ p.documentKeydown = 1

/-- No observer has queued records. -/
def Page.Settled (p : Page) : Prop :=
  ∀ e ∈ p.elements, ∀ q ∈ e.observers, q = []

/-- A `class` record is queued for an observer of element `i`: the marker of the
element was mutated and the notification is not delivered yet. -/
def Page.markerMutated (p : Page) (i : Nat) : Bool :=
  match p.elements[i]? with
  | none => false
  | some e => e.observers.any (fun q => q.any MutationRecord.isClass)

/-- The `aria-expanded` attribute of the element is the string form of its expanded state. -/
def Element.Synced (e : Element) : Prop :=
  e.getAttribute "aria-expanded" = some (toString e.expanded)

/-- Element `i` exists and its `aria-expanded` equals its expanded state. -/
def Page.Synced (p : Page) (i : Nat) : Prop :=
  ∃ e, p.elements[i]? = some e ∧ e.Synced

/-- A revert timer of card `i` (line 32) is pending. -/
def Page.revertPending (p : Page) (i : Nat) : Prop :=
  ∃ t ∈ p.timers, t.action = TimerAction.revertTransform i

/-- Clicks and timer firings, the tasks of the pulse of a card. -/
def Op.isPulse : Op → Bool
  | Op.click _ => true
  | Op.timer _ => true
  | _ => false

/-- The result of the microtask checkpoint: every element's records are delivered. -/
def Page.settle (p : Page) : Page :=
  { p with elements := p.elements.map Element.settle }

/-- An update of an element that changes neither whether it is a card, nor the number
of its observers, nor how many card listeners it carries. -/
def Element.KeepsWiring (f : Element → Element) : Prop :=
  ∀ e, isRuleCard (f e) = isRuleCard e ∧ (f e).observers.length = e.observers.length ∧
    (f e).listeners.count (Listener.click ClickHandler.toggleCard)
      = e.listeners.count (Listener.click ClickHandler.toggleCard) ∧
    (f e).listeners.count Listener.keydown = e.listeners.count Listener.keydown

/-- A reflexive and transitive relation between an element and what the script makes of it. -/
structure ElementRel (R : Element → Element → Prop) : Prop where
  refl : ∀ e, R e e
  trans : ∀ a b c, R a b → R b c → R a c

/-- The documents of two pages are related element by element. -/
def Page.Rel (R : Element → Element → Prop) (p p' : Page) : Prop :=
  List.Forall₂ R p.elements p'.elements

/-- No observer of the element has a `class` record queued. -/
def Element.NoClassRecord (e : Element) : Prop :=
  ∀ q ∈ e.observers, q.any MutationRecord.isClass = false

/-- Every observer of the element has a `class` record queued. -/
def Element.ClassRecordQueued (e : Element) : Prop :=
  ∀ q ∈ e.observers, q.any MutationRecord.isClass = true

/-- The script left the marker and the attributes of the element alone and queued no
`class` record. -/
def Element.Frame (e e' : Element) : Prop :=
  e'.classList = e.classList ∧ e'.attributes = e.attributes ∧
    (e.NoClassRecord → e'.NoClassRecord)

/-- What the synchronous part of any task does to an element: a card stays a card
with the same observers, no attribute is written, and when the token set changes a
`class` record is queued for every observer. -/
def Element.Mutation (e e' : Element) : Prop :=
  isRuleCard e' = isRuleCard e ∧ e'.observers.length = e.observers.length ∧
    e'.attributes = e.attributes ∧ (e.ClassRecordQueued → e'.ClassRecordQueued) ∧
    (e'.classList = e.classList ∨ e'.ClassRecordQueued)

/-- The pulse invariant of card `i`: the element is a card, and its inline transform is
empty unless a revert timer of the card is pending. -/
def Page.PulseOk (p : Page) (i : Nat) : Prop :=
  ∃ e, p.elements[i]? = some e ∧ isRuleCard e = true ∧ (e.transform = "" ∨ p.revertPending i)

/-! ## Sample markup -/

/-- Markup of a card that is collapsed in the page source. -/
def sampleCard : Markup :=
  { tagName := "div", classList := ["rule-card"], attributes := [], transform := "",
    textShadow := "", offsetTop := 0, offsetHeight := 0 }

/-- Markup of a card that carries the `active` marker in the page source. -/
def sampleActiveCard : Markup :=
  { tagName := "div", classList := ["rule-card", "active"], attributes := [], transform := "",
    textShadow := "", offsetTop := 0, offsetHeight := 0 }

/-- Markup of a link whose `href` is the empty string. -/
def sampleEmptyLink : Markup :=
  { tagName := "a", classList := [], attributes := [("href", "")], transform := "",
    textShadow := "", offsetTop := 0, offsetHeight := 0 }

/-- Markup of a link to another page. -/
def samplePageLink : Markup :=
  { tagName := "a", classList := [], attributes := [("href", "regras.html")], transform := "",
    textShadow := "", offsetTop := 0, offsetHeight := 0 }

/-- The element that `sampleCard` has become once the page is loaded. -/
def sampleCardElement : Element :=
  { tagName := "div", classList := ["rule-card"],
    attributes := [("tabindex", "0"), ("role", "button"), ("aria-expanded", "false")],
    transform := "", textShadow := "", offsetTop := 0, offsetHeight := 0,
    listeners := [Listener.click ClickHandler.toggleCard, Listener.keydown],
    observers := [[]] }

/-- The element that `samplePageLink` has become once the page is loaded. -/
def samplePageLinkElement : Element :=
  { tagName := "a", classList := [], attributes := [("href", "regras.html")],
    transform := "", textShadow := "", offsetTop := 0, offsetHeight := 0,
    listeners := [Listener.click ClickHandler.pageTransition], observers := [] }

/-! ## Attribute lists and token sets -/

theorem getAttr_setAttr_same (name value : String) (l : List (String × String)) :
    getAttr name (setAttr name value l) = some value := by
  induction l with
  | nil => simp [setAttr, getAttr]
  | cons a l ih =>
    obtain ⟨k, v⟩ := a
    by_cases h : k = name
    · simp [setAttr, getAttr, h]
    · simp [setAttr, getAttr, h, ih]

theorem getAttr_setAttr_ne {name other : String} (value : String) (h : other ≠ name)
    (l : List (String × String)) :
    getAttr other (setAttr name value l) = getAttr other l := by
  induction l with
  | nil => simp [setAttr, getAttr, Ne.symm h]
  | cons a l ih =>
    obtain ⟨k, v⟩ := a
    by_cases hk : k = name
    · subst hk
      simp [setAttr, getAttr, Ne.symm h]
    · by_cases ho : k = other
      · subst ho
        simp [setAttr, getAttr, hk]
      · simp [setAttr, getAttr, hk, ho, ih]

theorem setAttr_setAttr_same (name value : String) (l : List (String × String)) :
    setAttr name value (setAttr name value l) = setAttr name value l := by
  induction l with
  | nil => simp [setAttr]
  | cons a l ih =>
    obtain ⟨k, v⟩ := a
    by_cases h : k = name
    · simp [setAttr, h]
    · simp [setAttr, h, ih]

theorem contains_toggle_self (tokens : List String) (token : String) :
    DOMTokenList.contains (DOMTokenList.toggle tokens token) token
      = !DOMTokenList.contains tokens token := by
  by_cases h : token ∈ tokens
  · simp [DOMTokenList.contains, DOMTokenList.toggle, DOMTokenList.remove, h]
  · simp [DOMTokenList.contains, DOMTokenList.toggle, h]

theorem contains_toggle_ne {token other : String} (tokens : List String) (h : other ≠ token) :
    DOMTokenList.contains (DOMTokenList.toggle tokens token) other
      = DOMTokenList.contains tokens other := by
  by_cases ht : token ∈ tokens
  · simp [DOMTokenList.contains, DOMTokenList.toggle, DOMTokenList.remove, ht, h]
  · simp [DOMTokenList.contains, DOMTokenList.toggle, ht, h]

theorem contains_add_self (tokens : List String) (token : String) :
    DOMTokenList.contains (DOMTokenList.add tokens token) token = true := by
  by_cases h : token ∈ tokens
  · simp [DOMTokenList.contains, DOMTokenList.add, h]
  · simp [DOMTokenList.contains, DOMTokenList.add, h]

theorem contains_add_ne {token other : String} (tokens : List String) (h : other ≠ token) :
    DOMTokenList.contains (DOMTokenList.add tokens token) other
      = DOMTokenList.contains tokens other := by
  by_cases ht : token ∈ tokens
  · simp [DOMTokenList.contains, DOMTokenList.add, ht]
  · simp [DOMTokenList.contains, DOMTokenList.add, ht, h]

theorem contains_remove_self (tokens : List String) (token : String) :
    DOMTokenList.contains (DOMTokenList.remove tokens token) token = false := by
  simp [DOMTokenList.contains, DOMTokenList.remove]

theorem contains_remove_ne {token other : String} (tokens : List String) (h : other ≠ token) :
    DOMTokenList.contains (DOMTokenList.remove tokens token) other
      = DOMTokenList.contains tokens other := by
  simp [DOMTokenList.contains, DOMTokenList.remove, h]

/-! ## Delivery of mutation records -/

theorem observerCallback_nil (e : Element) : observerCallback [] e = e := rfl

theorem observerCallback_cons (r : MutationRecord) (rs : List MutationRecord) (e : Element) :
    observerCallback (r :: rs) e =
      observerCallback rs
        (if r.attributeName = "class" then
          e.setAttribute "aria-expanded" (toString (DOMTokenList.contains e.classList "active"))
        else e) := rfl

/-- The callback on an element with a single observer: `aria-expanded` is written when
a `class` record is among the records, and each such write queues one record. -/
theorem observerCallback_single (recs : List MutationRecord) (e : Element)
    (q0 : List MutationRecord) (h : e.observers = [q0]) :
    observerCallback recs e =
      { e with
        attributes :=
          if recs.any MutationRecord.isClass then
            setAttr "aria-expanded" (toString e.expanded) e.attributes
          else e.attributes
        observers :=
          [q0 ++ List.replicate (recs.countP MutationRecord.isClass)
            (MutationRecord.mk "aria-expanded")] } := by
  induction recs generalizing e q0 with
  | nil =>
    cases e
    simp_all [observerCallback_nil]
  | cons r rs ih =>
    rw [observerCallback_cons]
    by_cases hr : r.attributeName = "class"
    · rw [if_pos hr]
      rw [ih _ (q0 ++ [MutationRecord.mk "aria-expanded"])
        (by simp [Element.setAttribute, Element.queueRecord, h])]
      cases e
      simp_all [Element.setAttribute, Element.queueRecord, Element.expanded,
        MutationRecord.isClass, setAttr_setAttr_same, List.replicate_succ]
    · rw [if_neg hr, ih _ q0 h]
      simp [MutationRecord.isClass, hr]

theorem notifyRound_nil (e : Element) (h : e.observers = []) : e.notifyRound = e := by
  simp [Element.notifyRound, h]

theorem notifyRound_single (e : Element) (q : List MutationRecord) (h : e.observers = [q]) :
    e.notifyRound =
      if q = [] then e
      else
        { e with
          attributes :=
            if q.any MutationRecord.isClass then
              setAttr "aria-expanded" (toString e.expanded) e.attributes
            else e.attributes
          observers :=
            [List.replicate (q.countP MutationRecord.isClass)
              (MutationRecord.mk "aria-expanded")] } := by
  cases q with
  | nil => simp [Element.notifyRound, Element.notifyObserver, h, List.range_succ]
  | cons r rs =>
    simp only [Element.notifyRound, h, List.length_singleton, List.range_succ, List.range_zero,
      List.nil_append, List.foldl_cons, List.foldl_nil, Element.notifyObserver]
    simp only [List.getElem?_cons_zero, List.set_cons_zero]
    rw [observerCallback_single (r :: rs) _ [] rfl]
    simp [Element.expanded]

theorem notifyObserver_of_empty (e : Element) (k : Nat)
    (h : ∀ q ∈ e.observers, q = []) : e.notifyObserver k = e := by
  unfold Element.notifyObserver
  cases hk : e.observers[k]? with
  | none => rfl
  | some q =>
    have hq : q = [] := h q (List.getElem?_mem hk)
    subst hq
    rfl

theorem notifyRound_of_empty (e : Element) (h : ∀ q ∈ e.observers, q = []) :
    e.notifyRound = e := by
  unfold Element.notifyRound
  generalize List.range e.observers.length = ks
  induction ks with
  | nil => rfl
  | cons k ks ih => rw [List.foldl_cons, notifyObserver_of_empty e k h, ih]

theorem settle_observers_empty (e : Element) (h : e.observers.length ≤ 1) :
    ∀ q ∈ e.settle.observers, q = [] := by
  unfold Element.settle
  match ho : e.observers with
  | [] => simp [ho]
  | [q] =>
    by_cases hc : q.any MutationRecord.isClass = true
    · simp [hc]
    · simp [hc]
  | _ :: _ :: _ => simp [ho] at h

theorem notifyRound_notifyRound (e : Element) (h : e.observers.length ≤ 1) :
    e.notifyRound.notifyRound = e.settle := by
  match ho : e.observers with
  | [] =>
    rw [notifyRound_nil e ho, notifyRound_nil e ho]
    simp [Element.settle, ho]
  | [q] =>
    rw [notifyRound_single e q ho]
    by_cases hq : q = []
    · subst hq
      rw [if_pos rfl, notifyRound_single e [] ho, if_pos rfl]
      cases e
      simp_all [Element.settle]
    · rw [if_neg hq]
      rw [notifyRound_single _ _ rfl]
      by_cases hc : q.any MutationRecord.isClass = true
      · have hpos : 0 < q.countP MutationRecord.isClass := by
          rw [List.countP_pos_iff]
          simpa using hc
        obtain ⟨n, hn⟩ := Nat.exists_eq_succ_of_ne_zero (Nat.pos_iff_ne_zero.mp hpos)
        simp [Element.settle, ho, hc, hn, List.replicate_succ, MutationRecord.isClass,
          Element.expanded]
      · have hzero : q.countP MutationRecord.isClass = 0 := by
          rw [List.countP_eq_zero]
          simpa using hc
        simp [Element.settle, ho, hc, hzero]
  | _ :: _ :: _ => simp [ho] at h

theorem notifyRound_eq_settle (e : Element) (h : e.observers.length ≤ 1)
    (hempty : ∀ q ∈ e.notifyRound.observers, q = []) : e.notifyRound = e.settle := by
  rw [← notifyRound_notifyRound e h, notifyRound_of_empty _ hempty]

theorem settle_of_empty (e : Element) (h : e.observers.length ≤ 1)
    (hempty : ∀ q ∈ e.observers, q = []) : e.settle = e := by
  rw [← notifyRound_notifyRound e h, notifyRound_of_empty e hempty,
    notifyRound_of_empty e hempty]

theorem pendingRecords_eq_false (p : Page) :
    p.pendingRecords = false ↔ p.Settled := by
  simp only [Page.pendingRecords, Page.Settled, List.any_eq_false, List.any_eq_true,
    Bool.not_eq_true', not_exists, not_and, Bool.not_eq_false, List.isEmpty_iff]

theorem notify_of_settled (fuel : Nat) (p : Page) (h : p.Settled) :
    notifyMutationObservers fuel p = some p := by
  have hp := (pendingRecords_eq_false p).mpr h
  cases fuel <;> simp [notifyMutationObservers, hp]

theorem settle_settled (p : Page) (h : ∀ e ∈ p.elements, e.observers.length ≤ 1) :
    p.settle.Settled := by
  intro e he
  simp only [Page.settle, List.mem_map] at he
  obtain ⟨e0, he0, rfl⟩ := he
  exact settle_observers_empty e0 (h e0 he0)

theorem settle_of_settled (p : Page) (h : ∀ e ∈ p.elements, e.observers.length ≤ 1)
    (hs : p.Settled) : p.settle = p := by
  have : p.elements.map Element.settle = p.elements := by
    conv_rhs => rw [← List.map_id p.elements]
    apply List.map_congr_left
    intro e he
    exact settle_of_empty e (h e he) (hs e he)
  simp [Page.settle, this]

/-- Two rounds of delivery always suffice on a page whose elements have at most one
observer, and the result is `Page.settle`. -/
theorem notify_eq_settle (n : Nat) (p : Page)
    (h : ∀ e ∈ p.elements, e.observers.length ≤ 1) :
    notifyMutationObservers (n + 2) p = some p.settle := by
  by_cases hp : p.pendingRecords = true
  · rw [notifyMutationObservers, if_pos hp]
    by_cases hp1 : ({ p with elements := p.elements.map Element.notifyRound } : Page).pendingRecords
        = true
    · rw [notifyMutationObservers, if_pos hp1]
      have h2 : ({ p with elements :=
            (p.elements.map Element.notifyRound).map Element.notifyRound } : Page) = p.settle := by
        have : (p.elements.map Element.notifyRound).map Element.notifyRound
            = p.elements.map Element.settle := by
          rw [List.map_map]
          apply List.map_congr_left
          intro e he
          exact notifyRound_notifyRound e (h e he)
        simp [Page.settle, this]
      simp only [h2]
      exact notify_of_settled n _ (settle_settled p h)
    · have hs1 := (pendingRecords_eq_false _).mp (by simpa using hp1)
      rw [notifyMutationObservers, if_neg hp1]
      have : p.elements.map Element.notifyRound = p.elements.map Element.settle := by
        apply List.map_congr_left
        intro e he
        apply notifyRound_eq_settle e (h e he)
        exact hs1 _ (List.mem_map_of_mem _ he)
      simp [Page.settle, this]
  · have hs := (pendingRecords_eq_false _).mp (by simpa using hp)
    rw [notify_of_settled _ _ hs, settle_of_settled p h hs]

theorem notify_mono (fuel : Nat) (p p' : Page)
    (h : notifyMutationObservers fuel p = some p') :
    notifyMutationObservers (fuel + 1) p = some p' := by
  induction fuel generalizing p with
  | zero =>
    by_cases hp : p.pendingRecords = true
    · simp [notifyMutationObservers, hp] at h
    · have hs := (pendingRecords_eq_false _).mp (by simpa using hp)
      rw [notify_of_settled _ _ hs] at h
      rw [notify_of_settled _ _ hs, h]
  | succ n ih =>
    by_cases hp : p.pendingRecords = true
    · rw [notifyMutationObservers, if_pos hp] at h
      rw [notifyMutationObservers, if_pos hp]
      exact ih _ h
    · have hs := (pendingRecords_eq_false _).mp (by simpa using hp)
      rw [notify_of_settled _ _ hs] at h
      rw [notify_of_settled _ _ hs, h]

theorem notify_mono_add (fuel k : Nat) (p p' : Page)
    (h : notifyMutationObservers fuel p = some p') :
    notifyMutationObservers (fuel + k) p = some p' := by
  induction k with
  | zero => exact h
  | succ k ih => exact notify_mono _ _ _ ih

/-- Whatever the fuel, a checkpoint that completes yields `Page.settle`. -/
theorem notify_some (fuel : Nat) (p p' : Page)
    (h : ∀ e ∈ p.elements, e.observers.length ≤ 1)
    (hn : notifyMutationObservers fuel p = some p') : p' = p.settle := by
  have h1 := notify_mono_add fuel 2 p p' hn
  rw [notify_eq_settle fuel p h] at h1
  exact (Option.some.inj h1).symm

theorem notify_of_le (fuel : Nat) (hfuel : 2 ≤ fuel) (p : Page)
    (h : ∀ e ∈ p.elements, e.observers.length ≤ 1) :
    notifyMutationObservers fuel p = some p.settle := by
  obtain ⟨n, rfl⟩ := Nat.exists_eq_add_of_le hfuel
  rw [Nat.add_comm]
  exact notify_eq_settle n p h

/-! ## `forEach` over a static node list -/

theorem getElem?_foldl_modify (f : Element → Element) (nodes : List Nat) (l : List Element)
    (hn : nodes.Nodup) (j : Nat) :
    (nodes.foldl (fun els i => els.modify f i) l)[j]?
      = if j ∈ nodes then l[j]?.map f else l[j]? := by
  induction nodes generalizing l with
  | nil => simp
  | cons i nodes ih =>
    rw [List.foldl_cons, ih _ (List.nodup_cons.mp hn).2, List.getElem?_modify]
    by_cases hji : j = i
    · subst hji
      have : j ∉ nodes := (List.nodup_cons.mp hn).1
      cases hl : l[j]? <;> simp [this]
    · have hij : ¬ i = j := fun h => hji h.symm
      by_cases hjn : j ∈ nodes
      · cases hl : l[j]? <;> simp [hji, hij, hjn]
      · cases hl : l[j]? <;> simp [hji, hij, hjn]

/-- Visiting the nodes selected by `sel` applies the body to exactly the matching elements. -/
theorem forEach_querySelectorAll (sel : Element → Bool) (f : Element → Element) (p : Page) :
    p.forEach (p.querySelectorAll sel) f
      = { p with elements := p.elements.map (fun e => if sel e then f e else e) } := by
  have hl : (p.querySelectorAll sel).foldl (fun els i => els.modify f i) p.elements
      = p.elements.map (fun e => if sel e then f e else e) := by
    apply List.ext_getElem?
    intro j
    have hnd : (p.querySelectorAll sel).Nodup := (List.nodup_range _).filter _
    rw [getElem?_foldl_modify f _ _ hnd j, List.getElem?_map]
    cases hj : p.elements[j]? with
    | none => simp
    | some e =>
      have hlt : j < p.elements.length := (List.getElem?_eq_some.mp hj).1
      by_cases hs : sel e = true
      · simp [Page.querySelectorAll, hj, hlt, hs]
      · simp [Page.querySelectorAll, hj, hlt, hs]
  simp [Page.forEach, hl]

theorem length_querySelectorAll (sel : Element → Bool) (p : Page) :
    (p.querySelectorAll sel).length = p.elements.countP sel := by
  unfold Page.querySelectorAll
  generalize p.elements = l
  induction l using List.reverseRecOn with
  | nil => simp
  | append_singleton l a ih =>
    rw [List.length_append, List.length_singleton, List.range_succ, List.filter_append,
      List.length_append, List.countP_append]
    congr 1
    · rw [← ih]
      congr 1
      apply List.filter_congr
      intro i hi
      rw [List.mem_range] at hi
      rw [List.getElem?_append_left hi]
    · by_cases hs : sel a = true
      · simp [hs]
      · simp [hs]

/-! ## The wiring invariant -/

theorem foldl_invariant {α β : Type} (P : α → Prop) (f : α → β → α) (l : List β) (a : α)
    (h0 : P a) (hstep : ∀ a b, P a → P (f a b)) : P (l.foldl f a) := by
  induction l generalizing a with
  | nil => exact h0
  | cons b l ih => exact ih _ (hstep a b h0)

theorem forall_mem_modify {P : Element → Prop} (f : Element → Element) (i : Nat)
    (l : List Element) (hl : ∀ e ∈ l, P e) (hf : ∀ e, P e → P (f e)) :
    ∀ e ∈ l.modify f i, P e := by
  induction l generalizing i with
  | nil => simp
  | cons a l ih =>
    cases i with
    | zero =>
      intro e he
      simp only [List.modify_zero_cons, List.mem_cons] at he
      rcases he with rfl | he
      · exact hf a (hl a (List.mem_cons_self _ _))
      · exact hl e (List.mem_cons_of_mem _ he)
    | succ i =>
      intro e he
      simp only [List.modify_succ_cons, List.mem_cons] at he
      rcases he with rfl | he
      · exact hl _ (List.mem_cons_self _ _)
      · exact ih i (fun e he => hl e (List.mem_cons_of_mem _ he)) e he

theorem keepsWiring_queueRecord (name : String) : Element.KeepsWiring (Element.queueRecord name) := by
  intro e
  simp [Element.queueRecord, isRuleCard]

theorem keepsWiring_classListToggle : Element.KeepsWiring (Element.classListToggle "active") := by
  intro e
  simp [Element.classListToggle, Element.queueRecord, isRuleCard,
    contains_toggle_ne e.classList (show "rule-card" ≠ "active" by decide)]

theorem keepsWiring_classListAdd : Element.KeepsWiring (Element.classListAdd "active") := by
  intro e
  simp [Element.classListAdd, Element.queueRecord, isRuleCard,
    contains_add_ne e.classList (show "rule-card" ≠ "active" by decide)]

theorem keepsWiring_classListRemove : Element.KeepsWiring (Element.classListRemove "active") := by
  intro e
  unfold Element.classListRemove
  by_cases h : e.classList = []
  · simp [h]
  · simp [h, Element.queueRecord, isRuleCard,
      contains_remove_ne e.classList (show "rule-card" ≠ "active" by decide)]

theorem keepsWiring_setAttribute (name value : String) :
    Element.KeepsWiring (Element.setAttribute name value) := by
  intro e
  simp [Element.setAttribute, Element.queueRecord, isRuleCard]

theorem keepsWiring_setTransform (value : String) :
    Element.KeepsWiring (Element.setTransform value) := by
  intro e
  simp [Element.setTransform, Element.queueRecord, isRuleCard]

theorem keepsWiring_setTextShadow (value : String) :
    Element.KeepsWiring (Element.setTextShadow value) := by
  intro e
  simp [Element.setTextShadow, Element.queueRecord, isRuleCard]

theorem KeepsWiring_comp {f g : Element → Element} (hf : Element.KeepsWiring f)
    (hg : Element.KeepsWiring g) : Element.KeepsWiring (fun e => g (f e)) := by
  intro e
  obtain ⟨a1, a2, a3, a4⟩ := hf e
  obtain ⟨b1, b2, b3, b4⟩ := hg (f e)
  exact ⟨b1.trans a1, b2.trans a2, b3.trans a3, b4.trans a4⟩

theorem keepsWiring_toggleCardElement : Element.KeepsWiring toggleCardElement :=
  @KeepsWiring_comp (Element.classListToggle "active") (Element.setTransform "scale(0.98)")
    keepsWiring_classListToggle (keepsWiring_setTransform _)

theorem keepsWiring_settle : Element.KeepsWiring Element.settle := by
  intro e
  unfold Element.settle
  split
  · split <;> simp_all [isRuleCard]
  · simp

theorem wiringOk_of_keeps {f : Element → Element} (hf : Element.KeepsWiring f) (e : Element)
    (h : e.WiringOk) : (f e).WiringOk := by
  obtain ⟨a1, a2, a3, a4⟩ := hf e
  unfold Element.WiringOk at *
  rw [a1, a2, a3, a4]
  exact h

theorem attached_congr {p p' : Page} (he : p'.elements = p.elements)
    (hd : p'.documentKeydown = p.documentKeydown) (h : p.Attached) : p'.Attached := by
  unfold Page.Attached at *
  rw [he, hd]
  exact h

theorem attached_updateElement {f : Element → Element} (hf : Element.KeepsWiring f) (i : Nat)
    (p : Page) (h : p.Attached) : (p.updateElement i f).Attached :=
  ⟨forall_mem_modify f i p.elements h.1 (wiringOk_of_keeps hf), h.2⟩

theorem attached_forEach {f : Element → Element} (hf : Element.KeepsWiring f) (nodes : List Nat)
    (p : Page) (h : p.Attached) : (p.forEach nodes f).Attached := by
  refine ⟨?_, h.2⟩
  exact foldl_invariant (fun els : List Element => ∀ e ∈ els, e.WiringOk) _ nodes p.elements h.1
    (fun els i hels => forall_mem_modify f i els hels (wiringOk_of_keeps hf))

theorem attached_log (msg : String) (p : Page) (h : p.Attached) : (p.log msg).Attached :=
  attached_congr rfl rfl h

theorem attached_setTimeout (a : TimerAction) (d : Nat) (p : Page) (h : p.Attached) :
    (p.setTimeout a d).Attached :=
  attached_congr rfl rfl h

theorem attached_settle (p : Page) (h : p.Attached) : p.settle.Attached := by
  refine ⟨?_, h.2⟩
  intro e he
  simp only [Page.settle, List.mem_map] at he
  obtain ⟨e0, he0, rfl⟩ := he
  exact wiringOk_of_keeps keepsWiring_settle e0 (h.1 e0 he0)

theorem attached_observers_le (p : Page) (h : p.Attached) :
    ∀ e ∈ p.elements, e.observers.length ≤ 1 := by
  intro e he
  have := (h.1 e he).1
  split at this <;> omega

/-! ## Handlers keep the wiring -/

theorem iterate_invariant {α : Type} (P : α → Prop) (f : α → α) (n : Nat) (a : α)
    (h0 : P a) (hstep : ∀ a, P a → P (f a)) : P (Nat.iterate f n a) := by
  induction n generalizing a with
  | zero => exact h0
  | succ n ih => exact ih _ (hstep a h0)

theorem pageTransitionOn_elements (href : Option String) (st : Page × Bool) :
    (pageTransitionOn href st).1.elements = st.1.elements ∧
    (pageTransitionOn href st).1.documentKeydown = st.1.documentKeydown := by
  unfold pageTransitionOn
  cases href with
  | none => simp
  | some h =>
    dsimp only
    split_ifs <;> simp [Page.setTimeout]

theorem pageTransitionHandler_elements (i : Nat) (st : Page × Bool) :
    (pageTransitionHandler i st).1.elements = st.1.elements ∧
    (pageTransitionHandler i st).1.documentKeydown = st.1.documentKeydown := by
  unfold pageTransitionHandler
  cases st.1.elements[i]? with
  | none => simp
  | some this => exact pageTransitionOn_elements _ st

theorem smoothScrollHandler_elements (i : Nat) (st : Page × Bool) :
    (smoothScrollHandler i st).1.elements = st.1.elements ∧
    (smoothScrollHandler i st).1.documentKeydown = st.1.documentKeydown := by
  unfold smoothScrollHandler
  cases st.1.elements[i]? with
  | none => simp
  | some this =>
    simp only
    cases this.getAttribute "href" with
    | none => simp
    | some href =>
      simp only
      split_ifs
      · simp
      · cases st.1.querySelector (matchesHash href) <;> simp

theorem attached_toggleCardHandler (i : Nat) (p : Page) (h : p.Attached) :
    (toggleCardHandler i p).Attached :=
  attached_setTimeout _ _ _ (attached_updateElement keepsWiring_toggleCardElement i p h)

theorem attached_handleClick (i : Nat) (st : Page × Bool) (l : Listener) (h : st.1.Attached) :
    (l.handleClick i st).1.Attached := by
  cases l with
  | click c =>
    cases c with
    | toggleCard => exact attached_toggleCardHandler i st.1 h
    | pageTransition =>
      exact attached_congr (pageTransitionHandler_elements i st).1
        (pageTransitionHandler_elements i st).2 h
    | smoothScroll =>
      exact attached_congr (smoothScrollHandler_elements i st).1
        (smoothScrollHandler_elements i st).2 h
  | _ => exact h

theorem attached_dispatchClick (i : Nat) (p : Page) (h : p.Attached) :
    (dispatchClick i p).1.Attached := by
  unfold dispatchClick
  cases p.elements[i]? with
  | none => exact h
  | some e =>
    exact foldl_invariant (fun st : Page × Bool => st.1.Attached) _ e.listeners (p, false) h
      (fun st l hst => attached_handleClick i st l hst)

theorem attached_dispatchClickAt (i : Nat) (st : Page × Bool) (h : st.1.Attached) :
    (dispatchClickAt i st).1.Attached := by
  unfold dispatchClickAt
  cases st.1.elements[i]? with
  | none => exact h
  | some e =>
    exact foldl_invariant (fun st : Page × Bool => st.1.Attached) _ e.listeners st h
      (fun st l hst => attached_handleClick i st l hst)

theorem attached_dispatchClickPath (path : List Nat) (p : Page) (h : p.Attached) :
    (dispatchClickPath path p).1.Attached :=
  foldl_invariant (fun st : Page × Bool => st.1.Attached) _ path (p, false) h
    (fun st i hst => attached_dispatchClickAt i st hst)

theorem attached_documentKeydownHandler (key : String) (p : Page) (h : p.Attached) :
    (documentKeydownHandler key p).Attached := by
  unfold documentKeydownHandler
  split
  · dsimp only
    split
    · exact attached_log _ _ (attached_forEach keepsWiring_classListRemove _ p h)
    · exact attached_forEach keepsWiring_classListRemove _ p h
  · exact h

theorem attached_dispatchKeydown (target : Option Nat) (key : String) (p : Page)
    (h : p.Attached) : (dispatchKeydown target key p).1.Attached := by
  unfold dispatchKeydown
  apply iterate_invariant (fun q : Page => q.Attached)
  · cases target with
    | none => exact h
    | some i =>
      simp only
      cases p.elements[i]? with
      | none => exact h
      | some e =>
        apply foldl_invariant (fun st : Page × Bool => st.1.Attached) _ e.listeners (p, false) h
        intro st l hst
        cases l with
        | keydown =>
          simp only [Listener.handleKeydown, cardKeydownHandler]
          split_ifs
          · exact attached_dispatchClick i st.1 hst
          · exact hst
        | _ => exact hst
  · exact fun q hq => attached_documentKeydownHandler key q hq

theorem attached_dispatchMouse (handle : Nat → Page → Listener → Page)
    (hh : ∀ i p l, p.Attached → (handle i p l).Attached) (i : Nat) (p : Page)
    (h : p.Attached) : (dispatchMouse handle i p).Attached := by
  unfold dispatchMouse
  cases p.elements[i]? with
  | none => exact h
  | some e =>
    exact foldl_invariant (fun q : Page => q.Attached) _ e.listeners p h
      (fun q l hq => hh i q l hq)

theorem attached_fireTimer (k : Nat) (p : Page) (h : p.Attached) :
    (fireTimer k p).Attached := by
  unfold fireTimer
  cases p.timers[k]? with
  | none => exact h
  | some t =>
    have h' : ({ p with timers := p.timers.eraseIdx k } : Page).Attached :=
      attached_congr rfl rfl h
    dsimp only
    cases t.action with
    | revertTransform i => exact attached_updateElement (keepsWiring_setTransform _) i _ h'
    | clearTextShadow i => exact attached_updateElement (keepsWiring_setTextShadow _) i _ h'
    | navigate href => exact attached_congr rfl rfl h'

theorem attached_run (op : Op) (p : Page) (h : p.Attached) : (op.run p).Attached := by
  cases op with
  | click i => exact attached_dispatchClick i p h
  | keydown target key => exact attached_dispatchKeydown target key p h
  | mouseenter i =>
    apply attached_dispatchMouse _ _ i p h
    intro i p l hp
    cases l <;> first
      | exact hp
      | exact attached_setTimeout _ _ _ (attached_updateElement (keepsWiring_setTextShadow _) i p hp)
  | mousedown i =>
    apply attached_dispatchMouse _ _ i p h
    intro i p l hp
    cases l <;> first
      | exact hp
      | exact attached_updateElement (keepsWiring_setTransform _) i p hp
  | mouseup i =>
    apply attached_dispatchMouse _ _ i p h
    intro i p l hp
    cases l <;> first
      | exact hp
      | exact attached_updateElement (keepsWiring_setTransform _) i p hp
  | timer k => exact attached_fireTimer k p h
  | expandAllCards =>
    exact attached_log _ _ (attached_forEach keepsWiring_classListAdd _ p h)
  | collapseAllCards =>
    exact attached_log _ _ (attached_forEach keepsWiring_classListRemove _ p h)
  | clickPath path => exact attached_dispatchClickPath path p h

/-- A task on a wired page completes with two rounds of delivery (or more), and its
result is the settled outcome of its synchronous part. -/
theorem task_eq (fuel : Nat) (hfuel : 2 ≤ fuel) (op : Op) (p : Page) (h : p.Attached) :
    p.task fuel op = some (op.run p).settle :=
  notify_of_le fuel hfuel _ (attached_observers_le _ (attached_run op p h))

theorem task_some (fuel : Nat) (op : Op) (p p' : Page) (h : p.Attached)
    (ht : p.task fuel op = some p') : p' = (op.run p).settle :=
  notify_some fuel _ _ (attached_observers_le _ (attached_run op p h)) ht

/-! ## The loaded page -/

theorem initExpandableCards_eq (p : Page) :
    initExpandableCards p =
      { p with
        elements := p.elements.map (fun e => if isRuleCard e then initCard e else e)
        console := p.console ++
          [toString (p.elements.countP isRuleCard) ++ " cards expansíveis inicializados"] } := by
  simp [initExpandableCards, forEach_querySelectorAll, Page.log, length_querySelectorAll]

theorem keepsWiring_addEventListener (l : Listener)
    (h1 : l ≠ Listener.click ClickHandler.toggleCard) (h2 : l ≠ Listener.keydown) :
    Element.KeepsWiring (Element.addEventListener l) := by
  intro e
  simp [Element.addEventListener, isRuleCard, List.count_append, List.count_singleton, h1, h2]

theorem keepsWiring_ite (sel : Element → Bool) {f : Element → Element}
    (hf : Element.KeepsWiring f) : Element.KeepsWiring (fun e => if sel e then f e else e) := by
  intro e
  by_cases h : sel e = true
  · simpa [h] using hf e
  · simp [h]

theorem wiringOk_initCard (e : Element) (ho : e.observers = []) (hl : e.listeners = [])
    (hc : isRuleCard e = true) : (initCard e).WiringOk ∧ (initCard e).observers = [[]] := by
  have hc' : isRuleCard (initCard e) = true := by
    simpa [initCard, isRuleCard, Element.setAttribute, Element.queueRecord,
      Element.addEventListener] using hc
  unfold Element.WiringOk
  rw [hc']
  simp [initCard, Element.setAttribute, Element.queueRecord, Element.addEventListener, ho, hl]

/-- The wiring that the three other `init` functions leave on the elements. -/
theorem load_elements (ms : List Markup) :
    ∃ f : Element → Element, (∀ e, (f e).observers = e.observers) ∧ Element.KeepsWiring f ∧
      (Page.load ms).elements =
        ms.map (fun m => f (if isRuleCard m.toElement then initCard m.toElement else m.toElement))
      ∧ (Page.load ms).documentKeydown = 1 := by
  refine ⟨fun e =>
    (fun e => if isAnchorLink e then
        e.addEventListener (Listener.click ClickHandler.smoothScroll) else e)
    ((fun e => if isNavButton e then
        ((e.addEventListener Listener.mouseenter).addEventListener
          Listener.mousedown).addEventListener Listener.mouseup else e)
    ((fun e => if isPageLink e then
        e.addEventListener (Listener.click ClickHandler.pageTransition) else e) e)), ?_, ?_, ?_, ?_⟩
  · intro e
    dsimp only
    split_ifs <;> simp [Element.addEventListener]
  · have h1 : Element.KeepsWiring (fun e => if isPageLink e then
        e.addEventListener (Listener.click ClickHandler.pageTransition) else e) :=
      keepsWiring_ite _ (keepsWiring_addEventListener _ (by decide) (by decide))
    have h2 : Element.KeepsWiring (fun e => if isNavButton e then
        ((e.addEventListener Listener.mouseenter).addEventListener
          Listener.mousedown).addEventListener Listener.mouseup else e) :=
      keepsWiring_ite _
        (@KeepsWiring_comp
          (fun e => (e.addEventListener Listener.mouseenter).addEventListener Listener.mousedown)
          (Element.addEventListener Listener.mouseup)
          (@KeepsWiring_comp (Element.addEventListener Listener.mouseenter)
            (Element.addEventListener Listener.mousedown)
            (keepsWiring_addEventListener _ (by decide) (by decide))
            (keepsWiring_addEventListener _ (by decide) (by decide)))
          (keepsWiring_addEventListener _ (by decide) (by decide)))
    have h3 : Element.KeepsWiring (fun e => if isAnchorLink e then
        e.addEventListener (Listener.click ClickHandler.smoothScroll) else e) :=
      keepsWiring_ite _ (keepsWiring_addEventListener _ (by decide) (by decide))
    exact KeepsWiring_comp (KeepsWiring_comp h1 h2) h3
  · simp [Page.load, domContentLoaded, addKeyboardNavigation, initSmoothScroll, initNavButtons,
      initPageTransitions, initExpandableCards_eq, forEach_querySelectorAll, Page.log,
      Page.ofMarkup, List.map_map, Function.comp_def]
  · simp [Page.load, domContentLoaded, addKeyboardNavigation, initSmoothScroll, initNavButtons,
      initPageTransitions, initExpandableCards_eq, forEach_querySelectorAll, Page.log,
      Page.ofMarkup]

theorem load_attached (ms : List Markup) : (Page.load ms).Attached ∧ (Page.load ms).Settled := by
  obtain ⟨f, hobs, hkeep, hel, hdoc⟩ := load_elements ms
  have key : ∀ m : Markup,
      (f (if isRuleCard m.toElement then initCard m.toElement else m.toElement)).WiringOk ∧
      ∀ q ∈ (f (if isRuleCard m.toElement then initCard m.toElement
        else m.toElement)).observers, q = [] := by
    intro m
    by_cases hc : isRuleCard m.toElement = true
    · rw [if_pos hc]
      obtain ⟨hw, ho⟩ := wiringOk_initCard m.toElement rfl rfl hc
      refine ⟨wiringOk_of_keeps hkeep _ hw, ?_⟩
      rw [hobs, ho]
      simp
    · rw [if_neg hc]
      refine ⟨wiringOk_of_keeps hkeep _ ?_, ?_⟩
      · unfold Element.WiringOk
        rw [if_neg hc]
        simp [Markup.toElement]
      · rw [hobs]
        simp [Markup.toElement]
  refine ⟨⟨?_, hdoc⟩, ?_⟩
  · intro e he
    rw [hel, List.mem_map] at he
    obtain ⟨m, _, rfl⟩ := he
    exact (key m).1
  · intro e he
    rw [hel, List.mem_map] at he
    obtain ⟨m, _, rfl⟩ := he
    exact (key m).2

/-- Every state of the page is wired and has no undelivered records. -/
theorem reachable_attached (p : Page) (h : Reachable p) : p.Attached ∧ p.Settled := by
  induction h with
  | load ms => exact load_attached ms
  | task fuel op _ ht ih =>
    rw [task_some fuel op _ _ ih.1 ht]
    exact ⟨attached_settle _ (attached_run op _ ih.1),
      settle_settled _ (attached_observers_le _ (attached_run op _ ih.1))⟩

/-! ## Relating a page to the page after a task -/

theorem forall₂_self {R : Element → Element → Prop} (hR : ElementRel R) (l : List Element) :
    List.Forall₂ R l l := by
  induction l with
  | nil => exact List.Forall₂.nil
  | cons a l ih => exact List.Forall₂.cons (hR.refl a) ih

theorem forall₂_chain {R : Element → Element → Prop} (hR : ElementRel R)
    {l1 l2 l3 : List Element} (h12 : List.Forall₂ R l1 l2) (h23 : List.Forall₂ R l2 l3) :
    List.Forall₂ R l1 l3 := by
  induction h12 generalizing l3 with
  | nil => cases h23; exact List.Forall₂.nil
  | cons hab _ ih =>
    cases h23 with
    | cons hbc h23 => exact List.Forall₂.cons (hR.trans _ _ _ hab hbc) (ih h23)

theorem forall₂_getElem? {R : Element → Element → Prop} {l1 l2 : List Element}
    (h : List.Forall₂ R l1 l2) (j : Nat) (e : Element) (he : l1[j]? = some e) :
    ∃ e', l2[j]? = some e' ∧ R e e' := by
  induction h generalizing j with
  | nil => simp at he
  | cons hab _ ih =>
    cases j with
    | zero =>
      simp only [List.getElem?_cons_zero, Option.some.injEq] at he
      subst he
      exact ⟨_, by simp, hab⟩
    | succ j =>
      simp only [List.getElem?_cons_succ] at he
      simpa using ih j he

theorem forall₂_getElem?_none {R : Element → Element → Prop} {l1 l2 : List Element}
    (h : List.Forall₂ R l1 l2) (j : Nat) (he : l1[j]? = none) : l2[j]? = none := by
  rw [List.getElem?_eq_none_iff] at *
  rw [← h.length_eq]
  exact he

theorem forall₂_modify {R : Element → Element → Prop} (hR : ElementRel R)
    (f : Element → Element) (hf : ∀ e, R e (f e)) (i : Nat) (l : List Element) :
    List.Forall₂ R l (l.modify f i) := by
  induction l generalizing i with
  | nil => simp
  | cons a l ih =>
    cases i with
    | zero => exact List.Forall₂.cons (hf a) (forall₂_self hR l)
    | succ i => exact List.Forall₂.cons (hR.refl a) (ih i)

theorem rel_self {R : Element → Element → Prop} (hR : ElementRel R) (p : Page) : Page.Rel R p p :=
  forall₂_self hR p.elements

theorem rel_chain {R : Element → Element → Prop} (hR : ElementRel R) {p1 p2 p3 : Page}
    (h12 : Page.Rel R p1 p2) (h23 : Page.Rel R p2 p3) : Page.Rel R p1 p3 :=
  forall₂_chain hR h12 h23

theorem rel_of_elements_eq {R : Element → Element → Prop} (hR : ElementRel R) {p p' : Page}
    (h : p'.elements = p.elements) : Page.Rel R p p' := by
  unfold Page.Rel
  rw [h]
  exact forall₂_self hR _

theorem rel_updateElement {R : Element → Element → Prop} (hR : ElementRel R)
    (f : Element → Element) (hf : ∀ e, R e (f e)) (i : Nat) (p : Page) :
    Page.Rel R p (p.updateElement i f) :=
  forall₂_modify hR f hf i p.elements

theorem rel_forEach {R : Element → Element → Prop} (hR : ElementRel R)
    (f : Element → Element) (hf : ∀ e, R e (f e)) (nodes : List Nat) (p : Page) :
    Page.Rel R p (p.forEach nodes f) :=
  foldl_invariant (fun els : List Element => List.Forall₂ R p.elements els) _ nodes p.elements
    (forall₂_self hR _)
    (fun els i h => forall₂_chain hR h (forall₂_modify hR f hf i els))

theorem rel_handleClick {R : Element → Element → Prop} (hR : ElementRel R)
    (hT : ∀ e, R e (toggleCardElement e)) (i : Nat) (st : Page × Bool) (l : Listener) :
    Page.Rel R st.1 (l.handleClick i st).1 := by
  cases l with
  | click c =>
    cases c with
    | toggleCard => exact rel_updateElement hR _ hT i st.1
    | pageTransition => exact rel_of_elements_eq hR (pageTransitionHandler_elements i st).1
    | smoothScroll => exact rel_of_elements_eq hR (smoothScrollHandler_elements i st).1
  | _ => exact rel_self hR _

theorem rel_dispatchClick {R : Element → Element → Prop} (hR : ElementRel R)
    (hT : ∀ e, R e (toggleCardElement e)) (i : Nat) (p : Page) :
    Page.Rel R p (dispatchClick i p).1 := by
  unfold dispatchClick
  cases p.elements[i]? with
  | none => exact rel_self hR p
  | some e =>
    exact foldl_invariant (fun st : Page × Bool => Page.Rel R p st.1) _ e.listeners (p, false)
      (rel_self hR p) (fun st l hst => rel_chain hR hst (rel_handleClick hR hT i st l))

theorem rel_dispatchClickAt {R : Element → Element → Prop} (hR : ElementRel R)
    (hT : ∀ e, R e (toggleCardElement e)) (i : Nat) (st : Page × Bool) :
    Page.Rel R st.1 (dispatchClickAt i st).1 := by
  unfold dispatchClickAt
  cases st.1.elements[i]? with
  | none => exact rel_self hR _
  | some e =>
    exact foldl_invariant (fun st' : Page × Bool => Page.Rel R st.1 st'.1) _ e.listeners st
      (rel_self hR _) (fun st' l hst => rel_chain hR hst (rel_handleClick hR hT i st' l))

theorem rel_dispatchClickPath {R : Element → Element → Prop} (hR : ElementRel R)
    (hT : ∀ e, R e (toggleCardElement e)) (path : List Nat) (p : Page) :
    Page.Rel R p (dispatchClickPath path p).1 :=
  foldl_invariant (fun st : Page × Bool => Page.Rel R p st.1) _ path (p, false)
    (rel_self hR p) (fun st i hst => rel_chain hR hst (rel_dispatchClickAt hR hT i st))

theorem rel_documentKeydownHandler {R : Element → Element → Prop} (hR : ElementRel R)
    (hRm : ∀ e, R e (Element.classListRemove "active" e)) (key : String) (p : Page) :
    Page.Rel R p (documentKeydownHandler key p) := by
  unfold documentKeydownHandler
  split
  · dsimp only
    split
    · exact rel_forEach hR _ hRm _ p
    · exact rel_forEach hR _ hRm _ p
  · exact rel_self hR p

theorem rel_dispatchKeydown {R : Element → Element → Prop} (hR : ElementRel R)
    (hT : ∀ e, R e (toggleCardElement e))
    (hRm : ∀ e, R e (Element.classListRemove "active" e))
    (target : Option Nat) (key : String) (p : Page) :
    Page.Rel R p (dispatchKeydown target key p).1 := by
  unfold dispatchKeydown
  apply iterate_invariant (fun q : Page => Page.Rel R p q)
  · cases target with
    | none => exact rel_self hR p
    | some i =>
      dsimp only
      cases p.elements[i]? with
      | none => exact rel_self hR p
      | some e =>
        apply foldl_invariant (fun st : Page × Bool => Page.Rel R p st.1) _ e.listeners
          (p, false) (rel_self hR p)
        intro st l hst
        cases l with
        | keydown =>
          simp only [Listener.handleKeydown, cardKeydownHandler]
          split_ifs
          · exact rel_chain hR hst (rel_dispatchClick hR hT i st.1)
          · exact hst
        | _ => exact hst
  · exact fun q hq => rel_chain hR hq (rel_documentKeydownHandler hR hRm key q)

theorem rel_dispatchMouse {R : Element → Element → Prop} (hR : ElementRel R)
    (handle : Nat → Page → Listener → Page)
    (hh : ∀ i p l, Page.Rel R p (handle i p l)) (i : Nat) (p : Page) :
    Page.Rel R p (dispatchMouse handle i p) := by
  unfold dispatchMouse
  cases p.elements[i]? with
  | none => exact rel_self hR p
  | some e =>
    exact foldl_invariant (fun q : Page => Page.Rel R p q) _ e.listeners p (rel_self hR p)
      (fun q l hq => rel_chain hR hq (hh i q l))

theorem rel_mouse {R : Element → Element → Prop} (hR : ElementRel R)
    (hTr : ∀ v e, R e (Element.setTransform v e))
    (hTs : ∀ v e, R e (Element.setTextShadow v e)) (i : Nat) (p : Page) :
    Page.Rel R p (dispatchMouse Listener.handleMouseenter i p) ∧
    Page.Rel R p (dispatchMouse Listener.handleMousedown i p) ∧
    Page.Rel R p (dispatchMouse Listener.handleMouseup i p) := by
  refine ⟨?_, ?_, ?_⟩
  · apply rel_dispatchMouse hR
    intro i p l
    cases l <;> first
      | exact rel_self hR p
      | exact rel_updateElement hR _ (hTs _) i p
  · apply rel_dispatchMouse hR
    intro i p l
    cases l <;> first
      | exact rel_self hR p
      | exact rel_updateElement hR _ (hTr _) i p
  · apply rel_dispatchMouse hR
    intro i p l
    cases l <;> first
      | exact rel_self hR p
      | exact rel_updateElement hR _ (hTr _) i p

theorem rel_fireTimer {R : Element → Element → Prop} (hR : ElementRel R)
    (hTr : ∀ v e, R e (Element.setTransform v e))
    (hTs : ∀ v e, R e (Element.setTextShadow v e)) (k : Nat) (p : Page) :
    Page.Rel R p (fireTimer k p) := by
  unfold fireTimer
  cases p.timers[k]? with
  | none => exact rel_self hR p
  | some t =>
    dsimp only
    cases t.action with
    | revertTransform i =>
      exact rel_updateElement hR _ (hTr _) i { p with timers := p.timers.eraseIdx k }
    | clearTextShadow i =>
      exact rel_updateElement hR _ (hTs _) i { p with timers := p.timers.eraseIdx k }
    | navigate href => exact rel_self hR p

/-- Every task relates the page before to the page after by any relation that the
element operations of the script satisfy. -/
theorem rel_run {R : Element → Element → Prop} (hR : ElementRel R)
    (hT : ∀ e, R e (toggleCardElement e))
    (hAdd : ∀ e, R e (Element.classListAdd "active" e))
    (hRm : ∀ e, R e (Element.classListRemove "active" e))
    (hTr : ∀ v e, R e (Element.setTransform v e))
    (hTs : ∀ v e, R e (Element.setTextShadow v e)) (op : Op) (p : Page) :
    Page.Rel R p (op.run p) := by
  cases op with
  | click i => exact rel_dispatchClick hR hT i p
  | keydown target key => exact rel_dispatchKeydown hR hT hRm target key p
  | mouseenter i => exact (rel_mouse hR hTr hTs i p).1
  | mousedown i => exact (rel_mouse hR hTr hTs i p).2.1
  | mouseup i => exact (rel_mouse hR hTr hTs i p).2.2
  | timer k => exact rel_fireTimer hR hTr hTs k p
  | expandAllCards => exact rel_forEach hR _ hAdd _ p
  | collapseAllCards => exact rel_forEach hR _ hRm _ p
  | clickPath path => exact rel_dispatchClickPath hR hT path p

/-! ## Frame and mutation relations -/

theorem any_isClass_append_style (q : List MutationRecord) :
    (q ++ [MutationRecord.mk "style"]).any MutationRecord.isClass
      = q.any MutationRecord.isClass := by
  simp [MutationRecord.isClass]

theorem any_isClass_append_class (q : List MutationRecord) :
    (q ++ [MutationRecord.mk "class"]).any MutationRecord.isClass = true := by
  simp [MutationRecord.isClass]

theorem frame_rel : ElementRel Element.Frame where
  refl := fun _ => ⟨rfl, rfl, id⟩
  trans := fun _ _ _ hab hbc =>
    ⟨hbc.1.trans hab.1, hbc.2.1.trans hab.2.1, fun h => hbc.2.2 (hab.2.2 h)⟩

theorem frame_setTransform (v : String) (e : Element) : Element.Frame e (e.setTransform v) := by
  refine ⟨rfl, rfl, ?_⟩
  intro h q hq
  simp only [Element.setTransform, Element.queueRecord, List.mem_map] at hq
  obtain ⟨q0, hq0, rfl⟩ := hq
  rw [any_isClass_append_style]
  exact h q0 hq0

theorem frame_setTextShadow (v : String) (e : Element) : Element.Frame e (e.setTextShadow v) := by
  refine ⟨rfl, rfl, ?_⟩
  intro h q hq
  simp only [Element.setTextShadow, Element.queueRecord, List.mem_map] at hq
  obtain ⟨q0, hq0, rfl⟩ := hq
  rw [any_isClass_append_style]
  exact h q0 hq0

theorem mutation_rel : ElementRel Element.Mutation where
  refl := fun _ => ⟨rfl, rfl, rfl, id, Or.inl rfl⟩
  trans := by
    intro a b c hab hbc
    obtain ⟨a1, a2, a3, a4, a5⟩ := hab
    obtain ⟨b1, b2, b3, b4, b5⟩ := hbc
    refine ⟨b1.trans a1, b2.trans a2, b3.trans a3, fun h => b4 (a4 h), ?_⟩
    rcases a5 with h1 | h1
    · rcases b5 with h2 | h2
      · exact Or.inl (h2.trans h1)
      · exact Or.inr h2
    · exact Or.inr (b4 h1)

theorem classRecordQueued_queueRecord_class (e : Element) :
    (e.queueRecord "class").ClassRecordQueued := by
  intro q hq
  simp only [Element.queueRecord, List.mem_map] at hq
  obtain ⟨q0, _, rfl⟩ := hq
  exact any_isClass_append_class q0

theorem classRecordQueued_queueRecord (name : String) (e : Element)
    (h : e.ClassRecordQueued) : (e.queueRecord name).ClassRecordQueued := by
  intro q hq
  simp only [Element.queueRecord, List.mem_map] at hq
  obtain ⟨q0, hq0, rfl⟩ := hq
  rw [List.any_append, h q0 hq0]
  rfl

theorem mutation_setTransform (v : String) (e : Element) :
    Element.Mutation e (e.setTransform v) :=
  ⟨(keepsWiring_setTransform v e).1, (keepsWiring_setTransform v e).2.1, rfl,
    fun h => classRecordQueued_queueRecord "style" { e with transform := v } h, Or.inl rfl⟩

theorem mutation_setTextShadow (v : String) (e : Element) :
    Element.Mutation e (e.setTextShadow v) :=
  ⟨(keepsWiring_setTextShadow v e).1, (keepsWiring_setTextShadow v e).2.1, rfl,
    fun h => classRecordQueued_queueRecord "style" { e with textShadow := v } h, Or.inl rfl⟩

theorem mutation_classListToggle (e : Element) :
    Element.Mutation e (e.classListToggle "active") :=
  ⟨(keepsWiring_classListToggle e).1, (keepsWiring_classListToggle e).2.1, rfl,
    fun _ => classRecordQueued_queueRecord_class _,
    Or.inr (classRecordQueued_queueRecord_class _)⟩

theorem mutation_classListAdd (e : Element) : Element.Mutation e (e.classListAdd "active") :=
  ⟨(keepsWiring_classListAdd e).1, (keepsWiring_classListAdd e).2.1, rfl,
    fun _ => classRecordQueued_queueRecord_class _,
    Or.inr (classRecordQueued_queueRecord_class _)⟩

theorem mutation_classListRemove (e : Element) :
    Element.Mutation e (e.classListRemove "active") := by
  unfold Element.classListRemove
  by_cases h : e.classList = []
  · rw [if_pos h]
    exact mutation_rel.refl e
  · have hk := keepsWiring_classListRemove e
    unfold Element.classListRemove at hk
    rw [if_neg h] at hk ⊢
    exact ⟨hk.1, hk.2.1, rfl, fun _ => classRecordQueued_queueRecord_class _,
      Or.inr (classRecordQueued_queueRecord_class _)⟩

theorem mutation_toggleCardElement (e : Element) : Element.Mutation e (toggleCardElement e) :=
  mutation_rel.trans _ _ _ (mutation_classListToggle e) (mutation_setTransform _ _)

/-- The synchronous part of any task writes no attribute, and queues a `class`
record wherever it changes a token set. -/
theorem mutation_run (op : Op) (p : Page) : Page.Rel Element.Mutation p (op.run p) :=
  rel_run mutation_rel mutation_toggleCardElement mutation_classListAdd
    mutation_classListRemove mutation_setTransform mutation_setTextShadow op p

/-! ## Delivery on a card -/

theorem settle_of_classRecord (e : Element) (q : List MutationRecord) (ho : e.observers = [q])
    (hq : q.any MutationRecord.isClass = true) :
    e.settle = { e with
      attributes := setAttr "aria-expanded" (toString e.expanded) e.attributes
      observers := [[]] } := by
  simp [Element.settle, ho, hq]

theorem settle_of_noClassRecord (e : Element) (q : List MutationRecord) (ho : e.observers = [q])
    (hq : q.any MutationRecord.isClass = false) :
    e.settle = { e with observers := [[]] } := by
  simp [Element.settle, ho, hq]

theorem settle_classList (e : Element) : e.settle.classList = e.classList := by
  unfold Element.settle
  split
  · split <;> rfl
  · rfl

theorem settle_transform (e : Element) : e.settle.transform = e.transform := by
  unfold Element.settle
  split
  · split <;> rfl
  · rfl

theorem settle_expanded (e : Element) : e.settle.expanded = e.expanded := by
  simp [Element.expanded, settle_classList]

theorem settle_elements_getElem? (p : Page) (j : Nat) :
    p.settle.elements[j]? = p.elements[j]?.map Element.settle := by
  simp [Page.settle]

/-- A card of a reachable page has its one observer, with an empty queue, and its
two listeners. -/
theorem reachable_card (p : Page) (hp : Reachable p) (i : Nat) (e : Element)
    (he : p.elements[i]? = some e) (hc : isRuleCard e = true) :
    e.observers = [[]] ∧ e.listeners.count (Listener.click ClickHandler.toggleCard) = 1 ∧
      e.listeners.count Listener.keydown = 1 := by
  obtain ⟨ha, hs⟩ := reachable_attached p hp
  have hmem : e ∈ p.elements := List.getElem?_mem he
  obtain ⟨h1, h2, h3⟩ := ha.1 e hmem
  rw [if_pos hc] at h1 h2 h3
  refine ⟨?_, h2, h3⟩
  match ho : e.observers with
  | [] => simp [ho] at h1
  | [q] =>
    have : q = [] := hs e hmem q (by simp [ho])
    rw [this]
  | _ :: _ :: _ => simp [ho] at h1

/-! ## The effect of a click -/

theorem foldl_handleClick_elements (i : Nat) (ls : List Listener) (st : Page × Bool) :
    (ls.foldl (fun st l => l.handleClick i st) st).1.elements
      = st.1.elements.modify
          (Nat.iterate toggleCardElement (ls.count (Listener.click ClickHandler.toggleCard))) i := by
  induction ls generalizing st with
  | nil =>
    have : Nat.iterate toggleCardElement 0 = id := rfl
    simp [this]
  | cons l ls ih =>
    rw [List.foldl_cons, ih]
    cases l with
    | click c =>
      cases c with
      | toggleCard =>
        have h1 : (Listener.handleClick i st (Listener.click ClickHandler.toggleCard)).1.elements
            = st.1.elements.modify toggleCardElement i := rfl
        rw [h1, List.modify_modify_eq, List.count_cons_self]
        rfl
      | pageTransition =>
        have h1 : (Listener.handleClick i st (Listener.click ClickHandler.pageTransition)).1.elements
            = st.1.elements := (pageTransitionHandler_elements i st).1
        rw [h1, List.count_cons_of_ne (by decide)]
      | smoothScroll =>
        have h1 : (Listener.handleClick i st (Listener.click ClickHandler.smoothScroll)).1.elements
            = st.1.elements := (smoothScrollHandler_elements i st).1
        rw [h1, List.count_cons_of_ne (by decide)]
    | keydown => rw [List.count_cons_of_ne (by decide)]; rfl
    | mouseenter => rw [List.count_cons_of_ne (by decide)]; rfl
    | mousedown => rw [List.count_cons_of_ne (by decide)]; rfl
    | mouseup => rw [List.count_cons_of_ne (by decide)]; rfl

/-- A click on a card of a reachable page runs the toggle listener once, on that card. -/
theorem dispatchClick_card (p : Page) (hp : Reachable p) (i : Nat) (e : Element)
    (he : p.elements[i]? = some e) (hc : isRuleCard e = true) :
    (dispatchClick i p).1.elements = p.elements.modify toggleCardElement i := by
  obtain ⟨_, h2, _⟩ := reachable_card p hp i e he hc
  unfold dispatchClick
  rw [he]
  dsimp only
  rw [foldl_handleClick_elements, h2]
  rfl

theorem toggleCardElement_settle (e : Element) (ho : e.observers = [[]]) :
    (toggleCardElement e).settle =
      { e with
        classList := DOMTokenList.toggle e.classList "active"
        transform := "scale(0.98)"
        attributes := setAttr "aria-expanded" (toString (!e.expanded)) e.attributes } := by
  have h1 : (toggleCardElement e).observers
      = [[MutationRecord.mk "class", MutationRecord.mk "style"]] := by
    simp [toggleCardElement, Element.classListToggle, Element.setTransform,
      Element.queueRecord, ho]
  rw [settle_of_classRecord _ _ h1 (by simp [MutationRecord.isClass])]
  cases e
  simp_all [toggleCardElement, Element.classListToggle, Element.setTransform,
    Element.queueRecord, Element.expanded, contains_toggle_self]

/-- The page after a click task on a card: the card is toggled, pulsed and synced. -/
theorem click_task (p : Page) (hp : Reachable p) (i : Nat) (e : Element)
    (he : p.elements[i]? = some e) (hc : isRuleCard e = true) (fuel : Nat) (hfuel : 2 ≤ fuel) :
    ∃ p', p.task fuel (Op.click i) = some p' ∧ Reachable p' ∧
      p'.elements[i]? = some
        { e with
          classList := DOMTokenList.toggle e.classList "active"
          transform := "scale(0.98)"
          attributes := setAttr "aria-expanded" (toString (!e.expanded)) e.attributes } := by
  have ht := task_eq fuel hfuel (Op.click i) p (reachable_attached p hp).1
  refine ⟨_, ht, Reachable.task fuel (Op.click i) hp ht, ?_⟩
  rw [settle_elements_getElem?]
  show ((dispatchClick i p).1.elements[i]?).map Element.settle = _
  rw [dispatchClick_card p hp i e he hc, List.getElem?_modify_eq, he]
  show some (toggleCardElement e).settle = _
  rw [toggleCardElement_settle e (reachable_card p hp i e he hc).1]

/-! ## Bulk operations -/

theorem toString_true : toString true = "true" := rfl

theorem toString_false : toString false = "false" := rfl

theorem expandAllCards_elements (p : Page) :
    (Farol.expandAllCards p).elements
      = p.elements.map (fun e => if isRuleCard e then e.classListAdd "active" else e) := by
  simp [Farol.expandAllCards, forEach_querySelectorAll, Page.log]

theorem collapseAllCards_elements (p : Page) :
    (Farol.collapseAllCards p).elements
      = p.elements.map (fun e => if isRuleCard e then e.classListRemove "active" else e) := by
  simp [Farol.collapseAllCards, forEach_querySelectorAll, Page.log]

theorem classListAdd_settle (e : Element) (ho : e.observers = [[]]) :
    (e.classListAdd "active").settle =
      { e with
        classList := DOMTokenList.add e.classList "active"
        attributes := setAttr "aria-expanded" "true" e.attributes } := by
  have h1 : (e.classListAdd "active").observers = [[MutationRecord.mk "class"]] := by
    simp [Element.classListAdd, Element.queueRecord, ho]
  rw [settle_of_classRecord _ _ h1 (by simp [MutationRecord.isClass])]
  cases e
  simp_all [Element.classListAdd, Element.queueRecord, Element.expanded, contains_add_self, toString_true]

theorem classListRemove_settle (e : Element) (ho : e.observers = [[]])
    (hne : e.classList ≠ []) :
    (e.classListRemove "active").settle =
      { e with
        classList := DOMTokenList.remove e.classList "active"
        attributes := setAttr "aria-expanded" "false" e.attributes } := by
  have h0 : e.classListRemove "active"
      = ({ e with classList := DOMTokenList.remove e.classList "active" }).queueRecord "class" := by
    simp [Element.classListRemove, hne]
  have h1 : (e.classListRemove "active").observers = [[MutationRecord.mk "class"]] := by
    simp [h0, Element.queueRecord, ho]
  rw [settle_of_classRecord _ _ h1 (by simp [MutationRecord.isClass])]
  rw [h0]
  cases e
  simp_all [Element.queueRecord, Element.expanded, contains_remove_self, toString_false]

theorem classList_ne_nil_of_card (e : Element) (hc : isRuleCard e = true) : e.classList ≠ [] := by
  intro h
  simp [isRuleCard, DOMTokenList.contains, h] at hc

/-! ## Keyboard activation -/

theorem foldl_handleKeydown_zero (i : Nat) (key : String) (ls : List Listener) (st : Page × Bool)
    (h : ls.count Listener.keydown = 0) :
    ls.foldl (fun st l => l.handleKeydown i key st) st = st := by
  induction ls generalizing st with
  | nil => rfl
  | cons l ls ih =>
    cases l with
    | keydown => simp at h
    | click c =>
      rw [List.count_cons_of_ne (by simp)] at h
      rw [List.foldl_cons]
      exact ih _ h
    | mouseenter =>
      rw [List.count_cons_of_ne (by decide)] at h
      rw [List.foldl_cons]
      exact ih _ h
    | mousedown =>
      rw [List.count_cons_of_ne (by decide)] at h
      rw [List.foldl_cons]
      exact ih _ h
    | mouseup =>
      rw [List.count_cons_of_ne (by decide)] at h
      rw [List.foldl_cons]
      exact ih _ h

theorem foldl_handleKeydown_one (i : Nat) (key : String) (ls : List Listener) (st : Page × Bool)
    (h : ls.count Listener.keydown = 1) :
    ls.foldl (fun st l => l.handleKeydown i key st) st = cardKeydownHandler i key st := by
  induction ls generalizing st with
  | nil => simp at h
  | cons l ls ih =>
    cases l with
    | keydown =>
      rw [List.count_cons_self] at h
      rw [List.foldl_cons]
      exact foldl_handleKeydown_zero i key ls _ (by omega)
    | click c =>
      rw [List.count_cons_of_ne (by simp)] at h
      rw [List.foldl_cons]
      exact ih _ h
    | mouseenter =>
      rw [List.count_cons_of_ne (by decide)] at h
      rw [List.foldl_cons]
      exact ih _ h
    | mousedown =>
      rw [List.count_cons_of_ne (by decide)] at h
      rw [List.foldl_cons]
      exact ih _ h
    | mouseup =>
      rw [List.count_cons_of_ne (by decide)] at h
      rw [List.foldl_cons]
      exact ih _ h

theorem documentKeydownHandler_of_ne (key : String) (h : key ≠ "Escape") (p : Page) :
    documentKeydownHandler key p = p := by
  simp [documentKeydownHandler, h]

/-- On a card of a reachable page, Enter and Space run the click listeners of the card
and nothing else, and the default action of the key is prevented. -/
theorem dispatchKeydown_card (p : Page) (hp : Reachable p) (i : Nat) (e : Element)
    (he : p.elements[i]? = some e) (hc : isRuleCard e = true) (key : String)
    (hk : key = "Enter" ∨ key = " ") :
    dispatchKeydown (some i) key p = ((dispatchClick i p).1, true) := by
  obtain ⟨_, _, h3⟩ := reachable_card p hp i e he hc
  have hdoc : p.documentKeydown = 1 := (reachable_attached p hp).1.2
  have hne : key ≠ "Escape" := by
    rcases hk with rfl | rfl <;> decide
  unfold dispatchKeydown
  dsimp only
  rw [he, hdoc]
  dsimp only
  rw [foldl_handleKeydown_one i key e.listeners _ h3]
  simp [cardKeydownHandler, hk, documentKeydownHandler_of_ne key hne]

/-! ## One task and the synchronisation of `aria-expanded` -/

theorem synced_settle_of_classRecord (e : Element) (q : List MutationRecord)
    (ho : e.observers = [q]) (hq : q.any MutationRecord.isClass = true) : e.settle.Synced := by
  rw [settle_of_classRecord e q ho hq]
  simp [Element.Synced, Element.getAttribute, getAttr_setAttr_same, Element.expanded]

/-- The element of the page after a task, for a card of a reachable page. -/
theorem task_card (p : Page) (hp : Reachable p) (i : Nat) (e : Element)
    (he : p.elements[i]? = some e) (hc : isRuleCard e = true) (op : Op) :
    ∃ e1 q, (op.run p).elements[i]? = some e1 ∧ e1.observers = [q] ∧
      Element.Mutation e e1 ∧ (op.run p).settle.elements[i]? = some e1.settle ∧
      isRuleCard e1.settle = true := by
  obtain ⟨e1, he1, hm⟩ := forall₂_getElem? (mutation_run op p) i e he
  have hlen : e1.observers.length = 1 := by
    rw [hm.2.1, (reachable_card p hp i e he hc).1]
    rfl
  have hc1 : isRuleCard e1 = true := hm.1.trans hc
  match ho : e1.observers with
  | [] => simp [ho] at hlen
  | [q] =>
    refine ⟨e1, q, he1, ho, hm, ?_, ?_⟩
    · rw [settle_elements_getElem?, he1]
      rfl
    · rw [(keepsWiring_settle e1).1, hc1]
  | _ :: _ :: _ => simp [ho] at hlen

/-- One task: a card whose marker the task mutated, or that was in sync before, is in
sync afterwards. -/
theorem synced_task (p : Page) (hp : Reachable p) (i : Nat) (e : Element)
    (he : p.elements[i]? = some e) (hc : isRuleCard e = true) (op : Op)
    (h : (op.run p).markerMutated i = true ∨ e.Synced) :
    ∃ e', (op.run p).settle.elements[i]? = some e' ∧ isRuleCard e' = true ∧ e'.Synced := by
  obtain ⟨e1, q, he1, ho, hm, hs, hcs⟩ := task_card p hp i e he hc op
  refine ⟨_, hs, hcs, ?_⟩
  by_cases hq : q.any MutationRecord.isClass = true
  · exact synced_settle_of_classRecord e1 q ho hq
  · have hq' : q.any MutationRecord.isClass = false := by simpa using hq
    have hsync : e.Synced := by
      rcases h with h | h
      · simp [Page.markerMutated, he1, ho, hq'] at h
      · exact h
    have hcl : e1.classList = e.classList := by
      rcases hm.2.2.2.2 with h1 | h1
      · exact h1
      · have := h1 q (by simp [ho])
        rw [hq'] at this
        exact absurd this (by decide)
    rw [settle_of_noClassRecord e1 q ho hq']
    simpa [Element.Synced, Element.getAttribute, Element.expanded, hcl, hm.2.2.1] using hsync

/-! ## Sequences of tasks -/

theorem tasks_cons (fuel : Nat) (op : Op) (ops : List Op) (p p1 : Page)
    (h : p.task fuel op = some p1) :
    Page.tasks fuel (op :: ops) p = Page.tasks fuel ops p1 := by
  simp [Page.tasks, h]

/-- A card that is in sync stays in sync through any sequence of tasks, each of which
completes. -/
theorem synced_tasks (fuel : Nat) (hfuel : 2 ≤ fuel) (i : Nat) (ops : List Op) (p : Page)
    (hp : Reachable p)
    (h : ∃ e, p.elements[i]? = some e ∧ isRuleCard e = true ∧ e.Synced) :
    ∃ p', Page.tasks fuel ops p = some p' ∧ Reachable p' ∧
      ∃ e', p'.elements[i]? = some e' ∧ isRuleCard e' = true ∧ e'.Synced := by
  induction ops generalizing p with
  | nil => exact ⟨p, rfl, hp, h⟩
  | cons op ops ih =>
    obtain ⟨e, he, hc, hs⟩ := h
    have ht := task_eq fuel hfuel op p (reachable_attached p hp).1
    rw [tasks_cons fuel op ops p _ ht]
    exact ih _ (Reachable.task fuel op hp ht) (synced_task p hp i e he hc op (Or.inr hs))

/-! ## Tasks that leave the cards alone -/

theorem frame_settle (e e1 : Element) (hf : Element.Frame e e1)
    (hs : ∀ q ∈ e.observers, q = []) (hl : e1.observers.length ≤ 1) :
    e1.settle.classList = e.classList ∧ e1.settle.attributes = e.attributes := by
  have hn : e1.NoClassRecord := by
    apply hf.2.2
    intro q hq
    rw [hs q hq]
    rfl
  match ho : e1.observers with
  | [] => simp [Element.settle, ho, hf.1, hf.2.1]
  | [q] =>
    rw [settle_of_noClassRecord e1 q ho (hn q (by simp [ho]))]
    exact ⟨hf.1, hf.2.1⟩
  | _ :: _ :: _ => simp [ho] at hl

/-- A task whose synchronous part satisfies the frame relation changes neither the
marker nor `aria-expanded` of any element. -/
theorem frame_task (p : Page) (hp : Reachable p) (op : Op)
    (hrel : Page.Rel Element.Frame p (op.run p)) (j : Nat) :
    (op.run p).settle.expanded j = p.expanded j ∧
    (op.run p).settle.ariaExpanded j = p.ariaExpanded j := by
  obtain ⟨ha, hs⟩ := reachable_attached p hp
  have hle := attached_observers_le _ (attached_run op p ha)
  unfold Page.expanded Page.ariaExpanded Page.element
  rw [settle_elements_getElem?]
  cases he : p.elements[j]? with
  | none => simp [forall₂_getElem?_none hrel j he]
  | some e =>
    obtain ⟨e1, he1, hf⟩ := forall₂_getElem? hrel j e he
    obtain ⟨h1, h2⟩ := frame_settle e e1 hf (hs e (List.getElem?_mem he))
      (hle e1 (List.getElem?_mem he1))
    simp [he1, Element.expanded, Element.getAttribute, h1, h2]

theorem frame_mouse_timer (p : Page) (i : Nat) :
    Page.Rel Element.Frame p ((Op.mouseenter i).run p) ∧
    Page.Rel Element.Frame p ((Op.mousedown i).run p) ∧
    Page.Rel Element.Frame p ((Op.mouseup i).run p) ∧
    Page.Rel Element.Frame p ((Op.timer i).run p) :=
  ⟨(rel_mouse frame_rel frame_setTransform frame_setTextShadow i p).1,
   (rel_mouse frame_rel frame_setTransform frame_setTextShadow i p).2.1,
   (rel_mouse frame_rel frame_setTransform frame_setTextShadow i p).2.2,
   rel_fireTimer frame_rel frame_setTransform frame_setTextShadow i p⟩

/-! ## Escape -/

theorem foldl_handleKeydown_other (i : Nat) (key : String) (ls : List Listener)
    (st : Page × Bool) (hk : ¬ (key = "Enter" ∨ key = " ")) :
    ls.foldl (fun st l => l.handleKeydown i key st) st = st := by
  induction ls generalizing st with
  | nil => rfl
  | cons l ls ih =>
    rw [List.foldl_cons]
    cases l with
    | keydown =>
      have : Listener.handleKeydown i key st Listener.keydown = st := by
        simp [Listener.handleKeydown, cardKeydownHandler, hk]
      rw [this]
      exact ih st
    | _ => exact ih st

theorem documentKeydownHandler_escape_elements (p : Page) :
    (documentKeydownHandler "Escape" p).elements
      = p.elements.map (fun e => if isActiveRuleCard e then e.classListRemove "active" else e) := by
  unfold documentKeydownHandler
  rw [if_pos rfl]
  dsimp only
  split <;> simp [forEach_querySelectorAll, Page.log]

theorem dispatchKeydown_escape_elements (p : Page) (hp : Reachable p) (target : Option Nat) :
    ((Op.keydown target "Escape").run p).elements
      = p.elements.map (fun e => if isActiveRuleCard e then e.classListRemove "active" else e) := by
  have hdoc : p.documentKeydown = 1 := (reachable_attached p hp).1.2
  have hst : (match target with
      | none => (p, false)
      | some i =>
        match p.elements[i]? with
        | none => (p, false)
        | some e => e.listeners.foldl (fun st l => l.handleKeydown i "Escape" st) (p, false))
      = (p, false) := by
    cases target with
    | none => rfl
    | some i =>
      dsimp only
      cases p.elements[i]? with
      | none => rfl
      | some e => exact foldl_handleKeydown_other i "Escape" e.listeners _ (by decide)
  show (dispatchKeydown target "Escape" p).1.elements = _
  unfold dispatchKeydown
  dsimp only
  rw [hst, hdoc]
  exact documentKeydownHandler_escape_elements p

/-! ## The pulse -/

theorem foldl_handleClick_timers (i : Nat) (ls : List Listener) (st : Page × Bool) :
    (∀ t ∈ st.1.timers, t ∈ (ls.foldl (fun st l => l.handleClick i st) st).1.timers) ∧
    (0 < ls.count (Listener.click ClickHandler.toggleCard) →
      Timer.mk 100 (TimerAction.revertTransform i)
        ∈ (ls.foldl (fun st l => l.handleClick i st) st).1.timers) := by
  induction ls generalizing st with
  | nil => exact ⟨fun t ht => ht, fun h => by simp at h⟩
  | cons l ls ih =>
    rw [List.foldl_cons]
    obtain ⟨ih1, ih2⟩ := ih (l.handleClick i st)
    have hmono : ∀ t ∈ st.1.timers, t ∈ (l.handleClick i st).1.timers := by
      intro t ht
      cases l with
      | click c =>
        cases c with
        | toggleCard =>
          simp [Listener.handleClick, toggleCardHandler, Page.setTimeout, Page.updateElement, ht]
        | pageTransition =>
          simp only [Listener.handleClick, pageTransitionHandler]
          cases st.1.elements[i]? with
          | none => exact ht
          | some this =>
            dsimp only
            unfold pageTransitionOn
            cases this.getAttribute "href" with
            | none => exact ht
            | some h =>
              dsimp only
              split_ifs <;> simp [Page.setTimeout, ht]
        | smoothScroll =>
          simp only [Listener.handleClick, smoothScrollHandler]
          cases st.1.elements[i]? with
          | none => exact ht
          | some this =>
            dsimp only
            cases this.getAttribute "href" with
            | none => exact ht
            | some href =>
              dsimp only
              split_ifs
              · exact ht
              · cases st.1.querySelector (matchesHash href) <;> exact ht
      | _ => exact ht
    refine ⟨fun t ht => ih1 t (hmono t ht), ?_⟩
    intro hpos
    by_cases hl : l = Listener.click ClickHandler.toggleCard
    · subst hl
      apply ih1
      simp [Listener.handleClick, toggleCardHandler, Page.setTimeout, Page.updateElement]
    · rw [List.count_cons_of_ne (fun h => hl h.symm)] at hpos
      exact ih2 hpos

theorem dispatchClick_timers (i : Nat) (p : Page) :
    ∀ t ∈ p.timers, t ∈ (dispatchClick i p).1.timers := by
  unfold dispatchClick
  cases p.elements[i]? with
  | none => exact fun t ht => ht
  | some e => exact (foldl_handleClick_timers i e.listeners (p, false)).1

theorem dispatchClick_card_timer (p : Page) (hp : Reachable p) (i : Nat) (e : Element)
    (he : p.elements[i]? = some e) (hc : isRuleCard e = true) :
    Timer.mk 100 (TimerAction.revertTransform i) ∈ (dispatchClick i p).1.timers := by
  obtain ⟨_, h2, _⟩ := reachable_card p hp i e he hc
  unfold dispatchClick
  rw [he]
  exact (foldl_handleClick_timers i e.listeners (p, false)).2 (by omega)

theorem dispatchClick_other (i j : Nat) (hij : j ≠ i) (p : Page) :
    (dispatchClick j p).1.elements[i]? = p.elements[i]? := by
  unfold dispatchClick
  cases p.elements[j]? with
  | none => rfl
  | some e =>
    dsimp only
    rw [foldl_handleClick_elements, List.getElem?_modify_ne _ _ hij]

theorem pulseOk_settle (p : Page) (i : Nat) (h : p.PulseOk i) : p.settle.PulseOk i := by
  obtain ⟨e, he, hc, ht⟩ := h
  refine ⟨e.settle, ?_, ?_, ?_⟩
  · rw [settle_elements_getElem?, he]
    rfl
  · rw [(keepsWiring_settle e).1, hc]
  · rw [settle_transform]
    exact ht

theorem revertPending_erase (p : Page) (i k : Nat) (t : Timer) (hk : p.timers[k]? = some t)
    (hne : t.action ≠ TimerAction.revertTransform i) (h : p.revertPending i) :
    ∃ t0 ∈ p.timers.eraseIdx k, t0.action = TimerAction.revertTransform i := by
  obtain ⟨t0, ht0, ha⟩ := h
  refine ⟨t0, ?_, ha⟩
  obtain ⟨n, hn⟩ := List.mem_iff_getElem?.mp ht0
  rw [List.mem_eraseIdx_iff_getElem?]
  refine ⟨n, ?_, hn⟩
  intro hnk
  subst hnk
  rw [hk] at hn
  have : t = t0 := Option.some.inj hn
  subst this
  exact hne ha

/-- Clicks and timer firings keep the pulse invariant of a card. -/
theorem pulseOk_run (p : Page) (hp : Reachable p) (i : Nat) (h : p.PulseOk i) (op : Op)
    (hop : op.isPulse = true) : (op.run p).PulseOk i := by
  obtain ⟨e, he, hc, ht⟩ := h
  cases op with
  | click j =>
    by_cases hji : j = i
    · subst hji
      refine ⟨toggleCardElement e, ?_, ?_, Or.inr ?_⟩
      · show (dispatchClick j p).1.elements[j]? = _
        rw [dispatchClick_card p hp j e he hc, List.getElem?_modify_eq, he]
        rfl
      · rw [(keepsWiring_toggleCardElement e).1, hc]
      · exact ⟨_, dispatchClick_card_timer p hp j e he hc, rfl⟩
    · refine ⟨e, ?_, hc, ?_⟩
      · show (dispatchClick j p).1.elements[i]? = _
        rw [dispatchClick_other i j hji p, he]
      · rcases ht with ht | ⟨t0, ht0, ha⟩
        · exact Or.inl ht
        · exact Or.inr ⟨t0, dispatchClick_timers j p t0 ht0, ha⟩
  | timer k =>
    show (fireTimer k p).PulseOk i
    unfold fireTimer
    cases hk : p.timers[k]? with
    | none => exact ⟨e, he, hc, ht⟩
    | some t =>
      dsimp only
      cases ha : t.action with
      | revertTransform i' =>
        by_cases hii : i' = i
        · subst hii
          refine ⟨e.setTransform "", ?_, ?_, Or.inl rfl⟩
          · show (p.elements.modify (Element.setTransform "") i')[i']? = _
            rw [List.getElem?_modify_eq, he]
            rfl
          · rw [(keepsWiring_setTransform "" e).1, hc]
        · refine ⟨e, ?_, hc, ?_⟩
          · show (p.elements.modify (Element.setTransform "") i')[i]? = _
            rw [List.getElem?_modify_ne _ _ hii, he]
          · rcases ht with ht | ht
            · exact Or.inl ht
            · refine Or.inr (revertPending_erase p i k t hk ?_ ht)
              rw [ha]
              intro hcontra
              exact hii (TimerAction.revertTransform.inj hcontra)
      | clearTextShadow i' =>
        have hpend : e.transform = "" ∨
            ∃ t0 ∈ p.timers.eraseIdx k, t0.action = TimerAction.revertTransform i := by
          rcases ht with ht | ht
          · exact Or.inl ht
          · exact Or.inr (revertPending_erase p i k t hk (by rw [ha]; simp) ht)
        by_cases hii : i' = i
        · subst hii
          refine ⟨e.setTextShadow "", ?_, ?_, hpend⟩
          · show (p.elements.modify (Element.setTextShadow "") i')[i']? = _
            rw [List.getElem?_modify_eq, he]
            rfl
          · rw [(keepsWiring_setTextShadow "" e).1, hc]
        · refine ⟨e, ?_, hc, hpend⟩
          show (p.elements.modify (Element.setTextShadow "") i')[i]? = _
          rw [List.getElem?_modify_ne _ _ hii, he]
      | navigate href =>
        refine ⟨e, he, hc, ?_⟩
        rcases ht with ht | ht
        · exact Or.inl ht
        · exact Or.inr (revertPending_erase p i k t hk (by rw [ha]; simp) ht)
  | keydown _ _ => simp [Op.isPulse] at hop
  | mouseenter _ => simp [Op.isPulse] at hop
  | mousedown _ => simp [Op.isPulse] at hop
  | mouseup _ => simp [Op.isPulse] at hop
  | expandAllCards => simp [Op.isPulse] at hop
  | collapseAllCards => simp [Op.isPulse] at hop
  | clickPath _ => simp [Op.isPulse] at hop

/-- Any sequence of clicks and timer firings completes and keeps the pulse invariant. -/
theorem pulseOk_tasks (fuel : Nat) (hfuel : 2 ≤ fuel) (i : Nat) (ops : List Op) (p : Page)
    (hp : Reachable p) (h : p.PulseOk i) (hops : ∀ op ∈ ops, op.isPulse = true) :
    ∃ p', Page.tasks fuel ops p = some p' ∧ Reachable p' ∧ p'.PulseOk i := by
  induction ops generalizing p with
  | nil => exact ⟨p, rfl, hp, h⟩
  | cons op ops ih =>
    have ht := task_eq fuel hfuel op p (reachable_attached p hp).1
    rw [tasks_cons fuel op ops p _ ht]
    exact ih _ (Reachable.task fuel op hp ht)
      (pulseOk_settle _ i (pulseOk_run p hp i h op (hops op (List.mem_cons_self _ _))))
      (fun op' h' => hops op' (List.mem_cons_of_mem _ h'))

theorem setTransform_empty_settle (e : Element) (ho : e.observers = [[]]) :
    (e.setTransform "").settle = { e with transform := "" } := by
  have h1 : (e.setTransform "").observers = [[MutationRecord.mk "style"]] := by
    simp [Element.setTransform, Element.queueRecord, ho]
  rw [settle_of_noClassRecord _ _ h1 (by simp [MutationRecord.isClass])]
  cases e
  simp_all [Element.setTransform, Element.queueRecord]

/-- The card after the task in which one of its revert timers fires. -/
theorem revert_task_element (p : Page) (hp : Reachable p) (i : Nat) (e : Element)
    (he : p.elements[i]? = some e) (hc : isRuleCard e = true) (k : Nat) (t : Timer)
    (hk : p.timers[k]? = some t) (ha : t.action = TimerAction.revertTransform i) :
    ((Op.timer k).run p).settle.elements[i]? = some { e with transform := "" } := by
  rw [settle_elements_getElem?]
  show ((fireTimer k p).elements[i]?).map Element.settle = _
  unfold fireTimer
  rw [hk]
  dsimp only
  rw [ha]
  show ((p.elements.modify (Element.setTransform "") i)[i]?).map Element.settle = _
  rw [List.getElem?_modify_eq, he]
  show some (e.setTransform "").settle = _
  rw [setTransform_empty_settle e (reachable_card p hp i e he hc).1]

theorem dispatchClickAt_elements_of_not_card (i : Nat) (st : Page × Bool)
    (hatt : st.1.Attached)
    (hnc : ∀ e : Element, st.1.elements[i]? = some e → isRuleCard e = false) :
    (dispatchClickAt i st).1.elements = st.1.elements := by
  unfold dispatchClickAt
  cases he : st.1.elements[i]? with
  | none => rfl
  | some e =>
    have hcount : e.listeners.count (Listener.click ClickHandler.toggleCard) = 0 := by
      have := (hatt.1 e (List.getElem?_mem he)).2.1
      simpa [hnc e he] using this
    dsimp only
    rw [foldl_handleClick_elements, hcount]
    exact List.modify_id i st.1.elements

/-- A click whose propagation path meets no card changes no element. -/
theorem dispatchClickPath_elements_of_no_card (p : Page) (hatt : p.Attached)
    (path : List Nat)
    (hpath : ∀ i ∈ path, ∀ e : Element, p.elements[i]? = some e → isRuleCard e = false) :
    ((Op.clickPath path).run p).elements = p.elements := by
  show (dispatchClickPath path p).1.elements = p.elements
  unfold dispatchClickPath
  have key : ∀ (is : List Nat) (st : Page × Bool), st.1.Attached →
      st.1.elements = p.elements → (∀ i ∈ is, i ∈ path) →
      (is.foldl (fun st i => dispatchClickAt i st) st).1.elements = p.elements := by
    intro is
    induction is with
    | nil => exact fun st _ hel _ => hel
    | cons i is ih =>
      intro st hst hel hsub
      rw [List.foldl_cons]
      apply ih _ (attached_dispatchClickAt i st hst)
      · rw [dispatchClickAt_elements_of_not_card i st hst, hel]
        intro e he
        rw [hel] at he
        exact hpath i (hsub i (List.mem_cons_self _ _)) e he
      · exact fun j hj => hsub j (List.mem_cons_of_mem _ hj)
  exact key path (p, false) hatt rfl (fun _ h => h)

/-! ## The card controller: statements of the specification -/

/-- C1: on any reachable page, one click on a card followed by the delivery of the
observer notifications negates the expanded state of the card (presence of `active`)
and leaves `aria-expanded` equal to the string form of the new state. -/
theorem click_toggles_and_syncs (p : Page) (i : Nat) (e : Element) (fuel : Nat)
    (hp : Reachable p) (he : p.elements[i]? = some e) (hc : isRuleCard e = true)
    (hfuel : 2 ≤ fuel) :
    ∃ p', p.task fuel (Op.click i) = some p' ∧ p'.expanded i = some (!e.expanded) ∧
      p'.ariaExpanded i = some (toString (!e.expanded)) := by
  obtain ⟨p', ht, _, hel⟩ := click_task p hp i e he hc fuel hfuel
  refine ⟨p', ht, ?_, ?_⟩
  · simp [Page.expanded, Page.element, hel, Element.expanded, contains_toggle_self]
  · simp [Page.ariaExpanded, Page.element, hel, Element.getAttribute, getAttr_setAttr_same]

theorem click_toggles_and_syncs_witness :
    Reachable (Page.load [sampleCard]) ∧
    (Page.load [sampleCard]).elements[0]? = some sampleCardElement ∧
    ∃ p', (Page.load [sampleCard]).task 2 (Op.click 0) = some p' ∧
      p'.expanded 0 = some (!sampleCardElement.expanded) ∧
      p'.ariaExpanded 0 = some (toString (!sampleCardElement.expanded)) :=
  ⟨Reachable.load _, by decide,
    click_toggles_and_syncs (Page.load [sampleCard]) 0 sampleCardElement 2 (Reachable.load _)
      (by decide) (by decide) (by decide)⟩

/-- C2: on any reachable page, two click tasks in succession on a card return its
expanded state to the value it had before the first click. -/
theorem double_click_restores (p : Page) (i : Nat) (e : Element) (fuel : Nat)
    (hp : Reachable p) (he : p.elements[i]? = some e) (hc : isRuleCard e = true)
    (hfuel : 2 ≤ fuel) :
    ∃ p', Page.tasks fuel [Op.click i, Op.click i] p = some p' ∧
      p'.expanded i = some e.expanded := by
  obtain ⟨p1, ht1, hp1, hel1⟩ := click_task p hp i e he hc fuel hfuel
  have hc1 : isRuleCard
      { e with
        classList := DOMTokenList.toggle e.classList "active"
        transform := "scale(0.98)"
        attributes := setAttr "aria-expanded" (toString (!e.expanded)) e.attributes } = true := by
    simpa [isRuleCard, contains_toggle_ne e.classList (show "rule-card" ≠ "active" by decide)]
      using hc
  obtain ⟨p2, ht2, _, hel2⟩ := click_task p1 hp1 i _ hel1 hc1 fuel hfuel
  refine ⟨p2, ?_, ?_⟩
  · rw [tasks_cons fuel _ _ p p1 ht1, tasks_cons fuel _ _ p1 p2 ht2]
    rfl
  · simp [Page.expanded, Page.element, hel2, Element.expanded, contains_toggle_self]

theorem double_click_restores_witness :
    Reachable (Page.load [sampleCard]) ∧
    ∃ p', Page.tasks 2 [Op.click 0, Op.click 0] (Page.load [sampleCard]) = some p' ∧
      p'.expanded 0 = some sampleCardElement.expanded :=
  ⟨Reachable.load _,
    double_click_restores (Page.load [sampleCard]) 0 sampleCardElement 2 (Reachable.load _)
      (by decide) (by decide) (by decide)⟩

/-- C3: on any reachable page, `expandAllCards` followed by the delivery of the
observer notifications completes, and every card of the page is then still a card, at
the same place, with the `active` marker added and `aria-expanded` "true"; likewise
after `collapseAllCards` every card of the page is still a card, without the marker and
with `aria-expanded` "false". Elements that are not cards are left as they were, so
the cards of the resulting page are exactly those of the page before. Neither function
writes `aria-expanded` itself: before the delivery the attribute of every element is
what it was. -/
theorem bulk_expand_collapse (p : Page) (fuel : Nat) (hp : Reachable p) (hfuel : 2 ≤ fuel) :
    (∃ p', p.task fuel Op.expandAllCards = some p' ∧
      (∀ (i : Nat) (e : Element), p.elements[i]? = some e → isRuleCard e = true →
        ∃ e', p'.elements[i]? = some e' ∧ isRuleCard e' = true ∧
          e'.classList = DOMTokenList.add e.classList "active" ∧
          e'.expanded = true ∧ e'.getAttribute "aria-expanded" = some "true") ∧
      (∀ (i : Nat) (e : Element), p.elements[i]? = some e → isRuleCard e = false →
        p'.elements[i]? = some e) ∧
      p'.elements.length = p.elements.length ∧
      (∀ (i : Nat) (e' : Element), p'.elements[i]? = some e' → isRuleCard e' = true →
        e'.expanded = true ∧ e'.getAttribute "aria-expanded" = some "true")) ∧
    (∃ p', p.task fuel Op.collapseAllCards = some p' ∧
      (∀ (i : Nat) (e : Element), p.elements[i]? = some e → isRuleCard e = true →
        ∃ e', p'.elements[i]? = some e' ∧ isRuleCard e' = true ∧
          e'.classList = DOMTokenList.remove e.classList "active" ∧
          e'.expanded = false ∧ e'.getAttribute "aria-expanded" = some "false") ∧
      (∀ (i : Nat) (e : Element), p.elements[i]? = some e → isRuleCard e = false →
        p'.elements[i]? = some e) ∧
      p'.elements.length = p.elements.length ∧
      (∀ (i : Nat) (e' : Element), p'.elements[i]? = some e' → isRuleCard e' = true →
        e'.expanded = false ∧ e'.getAttribute "aria-expanded" = some "false")) ∧
    (∀ i, (Farol.expandAllCards p).ariaExpanded i = p.ariaExpanded i) ∧
    (∀ i, (Farol.collapseAllCards p).ariaExpanded i = p.ariaExpanded i) := by
  obtain ⟨hatt, hset⟩ := reachable_attached p hp
  have hexp : ∀ (i : Nat) (e : Element), p.elements[i]? = some e →
      (Op.expandAllCards.run p).settle.elements[i]?
        = some (if isRuleCard e then e.classListAdd "active" else e).settle := by
    intro i e he
    rw [settle_elements_getElem?]
    change ((Farol.expandAllCards p).elements[i]?).map Element.settle = _
    rw [expandAllCards_elements, List.getElem?_map, he]
    rfl
  have hcol : ∀ (i : Nat) (e : Element), p.elements[i]? = some e →
      (Op.collapseAllCards.run p).settle.elements[i]?
        = some (if isRuleCard e then e.classListRemove "active" else e).settle := by
    intro i e he
    rw [settle_elements_getElem?]
    change ((Farol.collapseAllCards p).elements[i]?).map Element.settle = _
    rw [collapseAllCards_elements, List.getElem?_map, he]
    rfl
  have hkeep : ∀ (i : Nat) (e : Element), p.elements[i]? = some e → e.settle = e := by
    intro i e he
    exact settle_of_empty e (attached_observers_le p hatt e (List.getElem?_mem he))
      (hset e (List.getElem?_mem he))
  have hexpCard : ∀ (i : Nat) (e : Element), p.elements[i]? = some e → isRuleCard e = true →
      ∃ e', (Op.expandAllCards.run p).settle.elements[i]? = some e' ∧ isRuleCard e' = true ∧
        e'.classList = DOMTokenList.add e.classList "active" ∧
        e'.expanded = true ∧ e'.getAttribute "aria-expanded" = some "true" := by
    intro i e he hc
    refine ⟨_, by rw [hexp i e he, hc, if_pos rfl,
      classListAdd_settle e (reachable_card p hp i e he hc).1], ?_, rfl, ?_, ?_⟩
    · simpa [isRuleCard, contains_add_ne e.classList (show "rule-card" ≠ "active" by decide)]
        using hc
    · simp [Element.expanded, contains_add_self]
    · simp [Element.getAttribute, getAttr_setAttr_same]
  have hcolCard : ∀ (i : Nat) (e : Element), p.elements[i]? = some e → isRuleCard e = true →
      ∃ e', (Op.collapseAllCards.run p).settle.elements[i]? = some e' ∧
        isRuleCard e' = true ∧
        e'.classList = DOMTokenList.remove e.classList "active" ∧
        e'.expanded = false ∧ e'.getAttribute "aria-expanded" = some "false" := by
    intro i e he hc
    refine ⟨_, by rw [hcol i e he, hc, if_pos rfl,
      classListRemove_settle e (reachable_card p hp i e he hc).1
        (classList_ne_nil_of_card e hc)], ?_, rfl, ?_, ?_⟩
    · simpa [isRuleCard,
        contains_remove_ne e.classList (show "rule-card" ≠ "active" by decide)] using hc
    · simp [Element.expanded, contains_remove_self]
    · simp [Element.getAttribute, getAttr_setAttr_same]
  have hexpOther : ∀ (i : Nat) (e : Element), p.elements[i]? = some e →
      isRuleCard e = false → (Op.expandAllCards.run p).settle.elements[i]? = some e := by
    intro i e he hc
    rw [hexp i e he, hc]
    simp only [Bool.false_eq_true, if_false]
    rw [hkeep i e he]
  have hcolOther : ∀ (i : Nat) (e : Element), p.elements[i]? = some e →
      isRuleCard e = false → (Op.collapseAllCards.run p).settle.elements[i]? = some e := by
    intro i e he hc
    rw [hcol i e he, hc]
    simp only [Bool.false_eq_true, if_false]
    rw [hkeep i e he]
  have hexpLen : (Op.expandAllCards.run p).settle.elements.length = p.elements.length := by
    change ((Farol.expandAllCards p).elements.map Element.settle).length = _
    rw [expandAllCards_elements]
    simp
  have hcolLen : (Op.collapseAllCards.run p).settle.elements.length = p.elements.length := by
    change ((Farol.collapseAllCards p).elements.map Element.settle).length = _
    rw [collapseAllCards_elements]
    simp
  refine ⟨⟨_, task_eq fuel hfuel Op.expandAllCards p hatt, hexpCard, hexpOther, hexpLen, ?_⟩,
    ⟨_, task_eq fuel hfuel Op.collapseAllCards p hatt, hcolCard, hcolOther, hcolLen, ?_⟩,
    ?_, ?_⟩
  · intro i e' he' hc'
    cases he : p.elements[i]? with
    | none =>
      have hlt : i < p.elements.length := by
        rw [← hexpLen]
        exact (List.getElem?_eq_some.mp he').1
      rw [List.getElem?_eq_none_iff] at he
      omega
    | some e =>
      by_cases hc : isRuleCard e = true
      · obtain ⟨e1, he1, _, _, h1, h2⟩ := hexpCard i e he hc
        rw [he'] at he1
        cases he1
        exact ⟨h1, h2⟩
      · have hc0 : isRuleCard e = false := by simpa using hc
        rw [hexpOther i e he hc0] at he'
        cases he'
        rw [hc0] at hc'
        exact absurd hc' (by decide)
  · intro i e' he' hc'
    cases he : p.elements[i]? with
    | none =>
      have hlt : i < p.elements.length := by
        rw [← hcolLen]
        exact (List.getElem?_eq_some.mp he').1
      rw [List.getElem?_eq_none_iff] at he
      omega
    | some e =>
      by_cases hc : isRuleCard e = true
      · obtain ⟨e1, he1, _, _, h1, h2⟩ := hcolCard i e he hc
        rw [he'] at he1
        cases he1
        exact ⟨h1, h2⟩
      · have hc0 : isRuleCard e = false := by simpa using hc
        rw [hcolOther i e he hc0] at he'
        cases he'
        rw [hc0] at hc'
        exact absurd hc' (by decide)
  · intro i
    unfold Page.ariaExpanded Page.element
    cases he : p.elements[i]? with
    | none =>
      have hn := forall₂_getElem?_none (mutation_run Op.expandAllCards p) i he
      change (Farol.expandAllCards p).elements[i]? = none at hn
      simp [hn]
    | some e =>
      obtain ⟨e1, he1, hm⟩ := forall₂_getElem? (mutation_run Op.expandAllCards p) i e he
      change (Farol.expandAllCards p).elements[i]? = some e1 at he1
      simp [he1, Element.getAttribute, hm.2.2.1]
  · intro i
    unfold Page.ariaExpanded Page.element
    cases he : p.elements[i]? with
    | none =>
      have hn := forall₂_getElem?_none (mutation_run Op.collapseAllCards p) i he
      change (Farol.collapseAllCards p).elements[i]? = none at hn
      simp [hn]
    | some e =>
      obtain ⟨e1, he1, hm⟩ := forall₂_getElem? (mutation_run Op.collapseAllCards p) i e he
      change (Farol.collapseAllCards p).elements[i]? = some e1 at he1
      simp [he1, Element.getAttribute, hm.2.2.1]

theorem bulk_expand_collapse_witness :
    Reachable (Page.load [sampleCard, sampleActiveCard]) ∧
    (∃ p', (Page.load [sampleCard, sampleActiveCard]).task 2 Op.expandAllCards = some p' ∧
      p'.elements.length = 2 ∧
      (∃ e', p'.elements[0]? = some e' ∧ isRuleCard e' = true ∧
        e'.classList = ["rule-card", "active"] ∧
        e'.expanded = true ∧ e'.getAttribute "aria-expanded" = some "true") ∧
      (∃ e', p'.elements[1]? = some e' ∧ isRuleCard e' = true ∧
        e'.classList = ["rule-card", "active"] ∧
        e'.expanded = true ∧ e'.getAttribute "aria-expanded" = some "true")) ∧
    (∃ p', (Page.load [sampleCard, sampleActiveCard]).task 2 Op.collapseAllCards = some p' ∧
      p'.elements.length = 2 ∧
      (∃ e', p'.elements[0]? = some e' ∧ isRuleCard e' = true ∧
        e'.classList = ["rule-card"] ∧
        e'.expanded = false ∧ e'.getAttribute "aria-expanded" = some "false") ∧
      (∃ e', p'.elements[1]? = some e' ∧ isRuleCard e' = true ∧
        e'.classList = ["rule-card"] ∧
        e'.expanded = false ∧ e'.getAttribute "aria-expanded" = some "false")) := by
  obtain ⟨⟨p1, ht1, hc1, _, hl1, _⟩, ⟨p2, ht2, hc2, _, hl2, _⟩, _, _⟩ :=
    bulk_expand_collapse (Page.load [sampleCard, sampleActiveCard]) 2 (Reachable.load _)
      (by decide)
  refine ⟨Reachable.load _, ⟨p1, ht1, hl1, ?_, ?_⟩, ⟨p2, ht2, hl2, ?_, ?_⟩⟩
  · exact hc1 0 sampleCardElement (by decide) (by decide)
  · exact hc1 1 { sampleCardElement with classList := ["rule-card", "active"] }
      (by decide) (by decide)
  · exact hc2 0 sampleCardElement (by decide) (by decide)
  · exact hc2 1 { sampleCardElement with classList := ["rule-card", "active"] }
      (by decide) (by decide)

/-- C4: on a card of any reachable page, a `keydown` whose key is Enter or Space leaves
the page exactly as a click on that card does (marker, transform and the scheduled
revert timer, and hence `aria-expanded` after the delivery), and the default action of
the key is prevented. -/
theorem keydown_activates_like_click (p : Page) (i : Nat) (e : Element) (key : String)
    (fuel : Nat) (hp : Reachable p) (he : p.elements[i]? = some e)
    (hc : isRuleCard e = true) (hk : key = "Enter" ∨ key = " ") (hfuel : 2 ≤ fuel) :
    (dispatchKeydown (some i) key p).1 = (dispatchClick i p).1 ∧
    (dispatchKeydown (some i) key p).2 = true ∧
    p.task fuel (Op.keydown (some i) key) = p.task fuel (Op.click i) ∧
    ∃ p', p.task fuel (Op.keydown (some i) key) = some p' := by
  have h := dispatchKeydown_card p hp i e he hc key hk
  have ht : p.task fuel (Op.keydown (some i) key) = p.task fuel (Op.click i) := by
    simp [Page.task, Op.run, h]
  refine ⟨by rw [h], by rw [h], ht, ?_⟩
  exact ⟨_, task_eq fuel hfuel _ p (reachable_attached p hp).1⟩

theorem keydown_activates_like_click_witness :
    Reachable (Page.load [sampleCard]) ∧
    (dispatchKeydown (some 0) " " (Page.load [sampleCard])).1
      = (dispatchClick 0 (Page.load [sampleCard])).1 ∧
    (dispatchKeydown (some 0) " " (Page.load [sampleCard])).2 = true ∧
    (Page.load [sampleCard]).task 2 (Op.keydown (some 0) " ")
      = (Page.load [sampleCard]).task 2 (Op.click 0) ∧
    ∃ p', (Page.load [sampleCard]).task 2 (Op.keydown (some 0) " ") = some p' :=
  ⟨Reachable.load _,
    keydown_activates_like_click (Page.load [sampleCard]) 0 sampleCardElement " " 2
      (Reachable.load _) (by decide) (by decide) (Or.inr rfl) (by decide)⟩

/-- C5: take a card of any reachable page and any task that mutates the marker of the
card (a `class` record is queued for its observer). After that task and its delivery,
and after any further sequence of tasks (clicks, key presses including Escape, mouse
events, timers, `expandAllCards`, `collapseAllCards`), the `aria-expanded` attribute of
the card is the string form of its expanded state. -/
theorem aria_matches_marker_after_mutation (p : Page) (i : Nat) (e : Element) (op : Op)
    (ops : List Op) (fuel : Nat) (hp : Reachable p) (he : p.elements[i]? = some e)
    (hc : isRuleCard e = true) (hm : (op.run p).markerMutated i = true) (hfuel : 2 ≤ fuel) :
    ∃ p', Page.tasks fuel (op :: ops) p = some p' ∧ p'.Synced i := by
  have ht := task_eq fuel hfuel op p (reachable_attached p hp).1
  obtain ⟨p', hts, _, e', he', _, hs⟩ := synced_tasks fuel hfuel i ops _
    (Reachable.task fuel op hp ht) (synced_task p hp i e he hc op (Or.inl hm))
  exact ⟨p', by rw [tasks_cons fuel op ops p _ ht, hts], e', he', hs⟩

theorem aria_matches_marker_after_mutation_witness :
    Reachable (Page.load [sampleActiveCard]) ∧
    ((Op.expandAllCards).run (Page.load [sampleActiveCard])).markerMutated 0 = true ∧
    ∃ p', Page.tasks 2 [Op.expandAllCards, Op.click 0, Op.keydown none "Escape"]
        (Page.load [sampleActiveCard]) = some p' ∧ p'.Synced 0 :=
  ⟨Reachable.load _, by decide,
    aria_matches_marker_after_mutation (Page.load [sampleActiveCard]) 0
      { sampleCardElement with classList := ["rule-card", "active"] } Op.expandAllCards
      [Op.click 0, Op.keydown none "Escape"] 2 (Reachable.load _) (by decide) (by decide)
      (by decide) (by decide)⟩

/-- C6 (as stated, refuted): the `keydown` listener that `addKeyboardNavigation` puts on
`document` does change card state. On the page with one card that a click has expanded,
the card is expanded with `aria-expanded` "true" before Escape is pressed, and collapsed
with `aria-expanded` "false" afterwards. -/
theorem escape_changes_card_state :
    (Page.tasks 2 [Op.click 0] (Page.load [sampleCard])).map
        (fun p => (p.expanded 0, p.ariaExpanded 0)) = some (some true, some "true") ∧
    (Page.tasks 2 [Op.click 0, Op.keydown none "Escape"] (Page.load [sampleCard])).map
        (fun p => (p.expanded 0, p.ariaExpanded 0)) = some (some false, some "false") := by
  decide

/-- C6 (amended): the click listeners of page transitions and smooth scroll change no
element, so that a click task whose propagation path meets no card leaves every
element as it was; the mouse tasks of the nav buttons (glow and press) change neither
the marker nor `aria-expanded` of any element; the `keydown` listener of `document`
leaves the page unchanged for every key other than Escape. On Escape it removes the
marker from every expanded card, whose `aria-expanded` is "false" after the delivery,
and leaves the collapsed cards as they were. -/
theorem outside_handlers_frame (p : Page) (fuel : Nat) (hp : Reachable p) (hfuel : 2 ≤ fuel) :
    (∀ i st, (pageTransitionHandler i st).1.elements = st.1.elements) ∧
    (∀ i st, (smoothScrollHandler i st).1.elements = st.1.elements) ∧
    (∀ path : List Nat,
      (∀ i ∈ path, ∀ e : Element, p.elements[i]? = some e → isRuleCard e = false) →
      ∃ p', p.task fuel (Op.clickPath path) = some p' ∧ p'.elements = p.elements) ∧
    (∀ i op, op = Op.mouseenter i ∨ op = Op.mousedown i ∨ op = Op.mouseup i →
      ∃ p', p.task fuel op = some p' ∧
        ∀ j, p'.expanded j = p.expanded j ∧ p'.ariaExpanded j = p.ariaExpanded j) ∧
    (∀ key, key ≠ "Escape" → documentKeydownHandler key p = p) ∧
    (∀ target, ∃ p', p.task fuel (Op.keydown target "Escape") = some p' ∧
      ∀ (j : Nat) (e : Element), p.elements[j]? = some e → isRuleCard e = true →
        (e.expanded = true →
          p'.expanded j = some false ∧ p'.ariaExpanded j = some "false") ∧
        (e.expanded = false → p'.elements[j]? = some e)) := by
  obtain ⟨hatt, hset⟩ := reachable_attached p hp
  refine ⟨fun i st => (pageTransitionHandler_elements i st).1,
    fun i st => (smoothScrollHandler_elements i st).1, ?_, ?_,
    fun key hk => documentKeydownHandler_of_ne key hk p, ?_⟩
  · intro path hpath
    refine ⟨_, task_eq fuel hfuel (Op.clickPath path) p hatt, ?_⟩
    have hrun : ((Op.clickPath path).run p).elements = p.elements :=
      dispatchClickPath_elements_of_no_card p hatt path hpath
    have hsettled : ((Op.clickPath path).run p).Settled := by
      intro e1 he1
      rw [hrun] at he1
      exact hset e1 he1
    rw [settle_of_settled _ (attached_observers_le _ (attached_run _ p hatt)) hsettled, hrun]
  · intro i op hop
    refine ⟨_, task_eq fuel hfuel op p hatt, ?_⟩
    obtain ⟨h1, h2, h3, _⟩ := frame_mouse_timer p i
    rcases hop with rfl | rfl | rfl
    · exact frame_task p hp _ h1
    · exact frame_task p hp _ h2
    · exact frame_task p hp _ h3
  · intro target
    refine ⟨_, task_eq fuel hfuel _ p hatt, ?_⟩
    intro j e he hc
    have hel : ((Op.keydown target "Escape").run p).settle.elements[j]?
        = some (if isActiveRuleCard e then e.classListRemove "active" else e).settle := by
      rw [settle_elements_getElem?, dispatchKeydown_escape_elements p hp target,
        List.getElem?_map, he]
      rfl
    have hobs := (reachable_card p hp j e he hc).1
    constructor
    · intro hexp
      have hact : isActiveRuleCard e = true := by
        simp only [isRuleCard] at hc
        simp only [Element.expanded] at hexp
        simp [isActiveRuleCard, hc, hexp]
      rw [hact, if_pos rfl, classListRemove_settle e hobs (classList_ne_nil_of_card e hc)] at hel
      simp [Page.expanded, Page.ariaExpanded, Page.element, hel, Element.expanded,
        contains_remove_self, Element.getAttribute, getAttr_setAttr_same]
    · intro hexp
      have hact : isActiveRuleCard e = false := by
        simp only [Element.expanded] at hexp
        simp [isActiveRuleCard, hexp]
      rw [hel, hact]
      simp only [Bool.false_eq_true, if_false]
      rw [settle_of_empty e (by simp [hobs]) (by simp [hobs])]

theorem outside_handlers_frame_witness :
    Reachable (Page.load [sampleActiveCard, samplePageLink]) ∧
    (∃ p', (Page.load [sampleActiveCard, samplePageLink]).task 2 (Op.clickPath [1]) = some p' ∧
      p'.elements = (Page.load [sampleActiveCard, samplePageLink]).elements) ∧
    (∃ p', (Page.load [sampleActiveCard, samplePageLink]).task 2 (Op.keydown none "Escape")
        = some p' ∧
      p'.expanded 0 = some false ∧ p'.ariaExpanded 0 = some "false") := by
  obtain ⟨_, _, hclick, _, _, hesc⟩ :=
    outside_handlers_frame (Page.load [sampleActiveCard, samplePageLink]) 2 (Reachable.load _)
      (by decide)
  obtain ⟨p', ht, hcards⟩ := hesc none
  refine ⟨Reachable.load _, hclick [1] ?_, p', ht, ?_⟩
  · intro i hi e he
    simp only [List.mem_singleton] at hi
    subst hi
    have : (Page.load [sampleActiveCard, samplePageLink]).elements[1]?
        = some samplePageLinkElement := by decide
    rw [this] at he
    cases he
    decide
  · exact (hcards 0 { sampleCardElement with classList := ["rule-card", "active"] }
      (by decide) (by decide)).1 (by decide)

/-- C7: `initExpandableCards` logs the number `n` of card elements of the document,
which is the number of iterations of its loop; when the document has no card, the loop
does not iterate and the page is left as it was except for the diagnostic, which
reports the count 0: no listener, no observer, no attribute written. -/
theorem init_reports_card_count (p : Page) (n : Nat) (hn : p.elements.countP isRuleCard = n) :
    (p.querySelectorAll isRuleCard).length = n ∧
    (initExpandableCards p).console
      = p.console ++ [toString n ++ " cards expansíveis inicializados"] ∧
    (n = 0 → p.querySelectorAll isRuleCard = [] ∧
      initExpandableCards p = p.log "0 cards expansíveis inicializados") := by
  have hlen : (p.querySelectorAll isRuleCard).length = n := by
    rw [length_querySelectorAll, hn]
  refine ⟨hlen, ?_, ?_⟩
  · rw [initExpandableCards_eq, hn]
  · intro h0
    have hnil : p.querySelectorAll isRuleCard = [] := by
      apply List.eq_nil_of_length_eq_zero
      rw [hlen, h0]
    refine ⟨hnil, ?_⟩
    unfold initExpandableCards
    simp only [hnil, Page.forEach, List.foldl_nil, List.length_nil]
    rfl

theorem init_reports_card_count_witness :
    (Page.ofMarkup [samplePageLink]).elements.countP isRuleCard = 0 ∧
    (Page.ofMarkup [samplePageLink]).querySelectorAll isRuleCard = [] ∧
    initExpandableCards (Page.ofMarkup [samplePageLink])
      = (Page.ofMarkup [samplePageLink]).log "0 cards expansíveis inicializados" :=
  ⟨by decide,
    (init_reports_card_count (Page.ofMarkup [samplePageLink]) 0 (by decide)).2.2 rfl⟩

/-- C8: let a card of a reachable page have an empty inline transform, and let any
finite sequence of click tasks and timer firings run. The sequence completes, and in
the state it reaches: (1) a click on the card leaves its transform at `scale(0.98)`;
(2) firing a revert timer of the card leaves its transform empty, and leaves the card
element unchanged when the transform was empty already; (3) when no revert timer of the
card is pending, its transform is empty; (4) firing any timer changes neither the
marker nor `aria-expanded` of the card. -/
theorem pulse_safety (p0 : Page) (i : Nat) (e0 : Element) (ops : List Op) (fuel : Nat)
    (hp : Reachable p0) (he : p0.elements[i]? = some e0) (hc : isRuleCard e0 = true)
    (ht : e0.transform = "") (hops : ∀ op ∈ ops, op.isPulse = true) (hfuel : 2 ≤ fuel) :
    ∃ p, Page.tasks fuel ops p0 = some p ∧
      (∃ p', p.task fuel (Op.click i) = some p' ∧ p'.transform i = some "scale(0.98)") ∧
      (∀ (k : Nat) (t : Timer), p.timers[k]? = some t →
        t.action = TimerAction.revertTransform i →
        ∃ p', p.task fuel (Op.timer k) = some p' ∧ p'.transform i = some "" ∧
          (p.transform i = some "" → p'.elements[i]? = p.elements[i]?)) ∧
      (¬ p.revertPending i → p.transform i = some "") ∧
      (∀ k, ∃ p', p.task fuel (Op.timer k) = some p' ∧
        p'.expanded i = p.expanded i ∧ p'.ariaExpanded i = p.ariaExpanded i) := by
  obtain ⟨p, hts, hrp, e, hel, hce, hinv⟩ :=
    pulseOk_tasks fuel hfuel i ops p0 hp ⟨e0, he, hc, Or.inl ht⟩ hops
  have hatt := (reachable_attached p hrp).1
  refine ⟨p, hts, ?_, ?_, ?_, ?_⟩
  · obtain ⟨p', ht', _, hel'⟩ := click_task p hrp i e hel hce fuel hfuel
    exact ⟨p', ht', by simp [Page.transform, Page.element, hel']⟩
  · intro k t hk ha
    refine ⟨_, task_eq fuel hfuel (Op.timer k) p hatt, ?_, ?_⟩
    · simp [Page.transform, Page.element, revert_task_element p hrp i e hel hce k t hk ha]
    · intro htr
      rw [revert_task_element p hrp i e hel hce k t hk ha, hel]
      have : e.transform = "" := by
        simpa [Page.transform, Page.element, hel] using htr
      cases e
      simp_all
  · intro hnp
    rcases hinv with h | h
    · simp [Page.transform, Page.element, hel, h]
    · exact absurd h hnp
  · intro k
    exact ⟨_, task_eq fuel hfuel (Op.timer k) p hatt,
      frame_task p hrp (Op.timer k) (frame_mouse_timer p k).2.2.2 i⟩

theorem pulse_safety_witness :
    Reachable (Page.load [sampleCard]) ∧ sampleCardElement.transform = "" ∧
    ∃ p, Page.tasks 2 [Op.click 0, Op.click 0, Op.timer 0] (Page.load [sampleCard]) = some p ∧
      (∃ p', p.task 2 (Op.click 0) = some p' ∧ p'.transform 0 = some "scale(0.98)") ∧
      (∀ (k : Nat) (t : Timer), p.timers[k]? = some t →
        t.action = TimerAction.revertTransform 0 →
        ∃ p', p.task 2 (Op.timer k) = some p' ∧ p'.transform 0 = some "" ∧
          (p.transform 0 = some "" → p'.elements[0]? = p.elements[0]?)) ∧
      (¬ p.revertPending 0 → p.transform 0 = some "") ∧
      (∀ k, ∃ p', p.task 2 (Op.timer k) = some p' ∧
        p'.expanded 0 = p.expanded 0 ∧ p'.ariaExpanded 0 = p.ariaExpanded 0) :=
  ⟨Reachable.load _, rfl,
    pulse_safety (Page.load [sampleCard]) 0 sampleCardElement
      [Op.click 0, Op.click 0, Op.timer 0] 2 (Reachable.load _) (by decide) (by decide) rfl
      (by decide) (by decide)⟩

/-- C9 (as stated, refuted): a link whose `href` is the empty string is neither
`#`-prefixed nor `javascript:`-prefixed, yet a click on it is not treated as a
navigation: the default is not prevented and the page is left as it was (no fade-out
style, no timer). -/
theorem empty_href_not_intercepted :
    startsWith "" "#" = false ∧ startsWith "" "javascript:" = false ∧
    (Page.load [sampleEmptyLink]).elements.map (fun e => e.listeners)
      = [[Listener.click ClickHandler.pageTransition]] ∧
    dispatchClick 0 (Page.load [sampleEmptyLink]) = (Page.load [sampleEmptyLink], false) := by
  decide

/-- C9 (amended): for the click listener of `initPageTransitions` on a link whose
`href` attribute has the value `h`: when `h` is non-empty, not `#`-prefixed and not
`javascript:`-prefixed, the default is prevented, the three fade-out styles are set on
the body and the navigation to `h` is scheduled after 400 ms; when `h` starts with `#`,
the listener changes nothing and does not prevent the default. -/
theorem page_transition_classification (i : Nat) (st : Page × Bool) (this : Element)
    (h : String) (hi : st.1.elements[i]? = some this)
    (hh : this.getAttribute "href" = some h) :
    (h ≠ "" → startsWith h "#" = false → startsWith h "javascript:" = false →
      pageTransitionHandler i st =
        (({ st.1 with
            bodyTransition := "opacity 0.4s ease, filter 0.4s ease"
            bodyOpacity := "0"
            bodyFilter := "blur(5px)"
            timers := st.1.timers ++ [Timer.mk 400 (TimerAction.navigate h)] } : Page), true)) ∧
    (startsWith h "#" = true → pageTransitionHandler i st = st) := by
  constructor
  · intro h1 h2 h3
    simp [pageTransitionHandler, hi, hh, pageTransitionOn, truthy, h1, h2, h3, Page.setTimeout]
  · intro h1
    have hne : h ≠ "" := by
      intro h0
      subst h0
      exact absurd h1 (by decide)
    simp [pageTransitionHandler, hi, hh, pageTransitionOn, truthy, h1, hne]

theorem page_transition_classification_witness :
    (Page.load [samplePageLink]).elements[0]? = some samplePageLinkElement ∧
    samplePageLinkElement.getAttribute "href" = some "regras.html" ∧
    pageTransitionHandler 0 (Page.load [samplePageLink], false) =
      (({ Page.load [samplePageLink] with
          bodyTransition := "opacity 0.4s ease, filter 0.4s ease"
          bodyOpacity := "0"
          bodyFilter := "blur(5px)"
          timers := (Page.load [samplePageLink]).timers
            ++ [Timer.mk 400 (TimerAction.navigate "regras.html")] } : Page), true) :=
  ⟨by decide, by decide,
    (page_transition_classification 0 (Page.load [samplePageLink], false)
      samplePageLinkElement "regras.html" (by decide) (by decide)).1
      (by decide) (by decide) (by decide)⟩

/-- C10 (as stated, refuted): a card that carries the `active` marker in the page
source is expanded right after `initExpandableCards`, while its `aria-expanded` is
"false". -/
theorem init_active_card_out_of_sync :
    (initExpandableCards (Page.ofMarkup [sampleActiveCard])).expanded 0 = some true ∧
    (initExpandableCards (Page.ofMarkup [sampleActiveCard])).ariaExpanded 0 = some "false" := by
  decide

/-- C10 (amended): for every card, whatever its state, `initExpandableCards` sets
`tabindex` to "0", `role` to "button" and `aria-expanded` to "false" and leaves the
token set of the card as it was; the observer it attaches comes last and has an empty
queue, the three writes having been made before. Consequently `aria-expanded` equals
the expanded state right after initialization exactly for the cards that do not carry
the `active` marker. -/
theorem init_card_attributes (p : Page) (i : Nat) (e : Element)
    (he : p.elements[i]? = some e) (hc : isRuleCard e = true) :
    ∃ e', (initExpandableCards p).elements[i]? = some e' ∧
      e'.classList = e.classList ∧
      e'.getAttribute "tabindex" = some "0" ∧
      e'.getAttribute "role" = some "button" ∧
      e'.getAttribute "aria-expanded" = some "false" ∧
      (∃ qs, e'.observers = qs ++ [[]] ∧ qs.length = e.observers.length) ∧
      (e'.Synced ↔ e.expanded = false) := by
  refine ⟨initCard e, ?_, ?_, ?_, ?_, ?_, ?_, ?_⟩
  · rw [initExpandableCards_eq]
    simp [he, hc]
  · simp [initCard, Element.setAttribute, Element.queueRecord, Element.addEventListener]
  · simp [initCard, Element.setAttribute, Element.queueRecord, Element.addEventListener,
      Element.getAttribute, getAttr_setAttr_same,
      getAttr_setAttr_ne "false" (show "tabindex" ≠ "aria-expanded" by decide),
      getAttr_setAttr_ne "button" (show "tabindex" ≠ "role" by decide)]
  · simp [initCard, Element.setAttribute, Element.queueRecord, Element.addEventListener,
      Element.getAttribute, getAttr_setAttr_same,
      getAttr_setAttr_ne "false" (show "role" ≠ "aria-expanded" by decide)]
  · simp [initCard, Element.setAttribute, Element.queueRecord, Element.addEventListener,
      Element.getAttribute, getAttr_setAttr_same]
  · exact ⟨_, rfl, by simp [Element.setAttribute, Element.queueRecord,
      Element.addEventListener]⟩
  · have haria : (initCard e).getAttribute "aria-expanded" = some "false" := by
      simp [initCard, Element.setAttribute, Element.queueRecord, Element.addEventListener,
        Element.getAttribute, getAttr_setAttr_same]
    have hexp : (initCard e).expanded = e.expanded := by
      simp [initCard, Element.setAttribute, Element.queueRecord, Element.addEventListener,
        Element.expanded]
    unfold Element.Synced
    rw [haria, hexp]
    cases e.expanded <;> decide

theorem init_card_attributes_witness :
    (Page.ofMarkup [sampleCard]).elements[0]? = some sampleCard.toElement ∧
    ∃ e', (initExpandableCards (Page.ofMarkup [sampleCard])).elements[0]? = some e' ∧
      e'.classList = sampleCard.toElement.classList ∧
      e'.getAttribute "tabindex" = some "0" ∧
      e'.getAttribute "role" = some "button" ∧
      e'.getAttribute "aria-expanded" = some "false" ∧
      (∃ qs, e'.observers = qs ++ [[]] ∧ qs.length = sampleCard.toElement.observers.length) ∧
      (e'.Synced ↔ sampleCard.toElement.expanded = false) :=
  ⟨by decide,
    init_card_attributes (Page.ofMarkup [sampleCard]) 0 sampleCard.toElement (by decide)
      (by decide)⟩

end Farol
